import Mathlib

/-! goployer: autoscaling-group lifecycle and health evaluation

A shallow embedding of `application/ec2.go` and `pkg/aws/elbv2.go`.

Conventions of the embedding

* A Go `string` is a Lean `String`; `strings.HasPrefix` and `strings.Split`
  work on its character list.
* The SDK hands out pointers to the fields of its response records.  The fields
  the code dereferences are required fields of the service responses and are
  modelled by their values.
* Every remote request is appended to a `History`.  A service answers a request
  as a function of the history of earlier requests and of the request itself, so
  a remote with arbitrary (deterministic) state is covered.
* An operation returns its outcome together with the history it leaves behind.
  The outcome is an `Except Abort _`: `Abort.exit1` is `os.Exit(1)`,
  `Abort.panic` a Go run-time panic, and `Abort.outOfFuel` says that the
  recursion budget handed to a recursive fetch was too small.
-/

namespace Goployer

/-! ## Outcomes, requests and service handles -/

/-- Ways in which an operation ends without returning to its caller. -/
inductive Abort where
  | exit1
  | panic
  | outOfFuel
  deriving DecidableEq, Repr

/-- The `error` values handed back by the SDK. -/
abbrev Error := String

/-- An `ec2.Filter`: a filter name and the accepted values. -/
structure Filter where
  Name : String
  Values : List String
  deriving DecidableEq, Repr

/-- An `autoscaling.Instance`, with the fields the code reads. -/
structure Instance where
  InstanceId : String
  LifecycleState : String
  HealthStatus : String
  deriving DecidableEq, Repr

/-- An `autoscaling.Group`, with the fields the code reads. -/
structure Group where
  AutoScalingGroupName : String
  Instances : List Instance := []
  deriving DecidableEq, Repr

/-- An `elbv2.TargetHealthDescription`: `Target.Id` and `TargetHealth.State`. -/
structure TargetHealthDescription where
  TargetId : String
  State : String
  deriving DecidableEq, Repr

/-- The record of `pkg/aws/elbv2.go`. -/
structure HealthcheckHost where
  InstanceId : String
  LifecycleState : String
  TargetStatus : String
  HealthStatus : String
  Healthy : Bool
  deriving DecidableEq, Repr

/-- An `ec2.Vpc`. -/
structure Vpc where
  VpcId : String
  deriving DecidableEq, Repr

/-- An `ec2.SecurityGroup`. -/
structure SecurityGroup where
  GroupId : String
  GroupName : String := ""
  deriving DecidableEq, Repr

/-- An `ec2.Tag`. -/
structure Ec2Tag where
  Key : String
  Value : String
  deriving DecidableEq, Repr

/-- An `ec2.Subnet`, with the fields the code reads. -/
structure Subnet where
  SubnetId : String
  AvailabilityZone : String
  Tags : List Ec2Tag := []
  deriving DecidableEq, Repr

/-- An `autoscaling.LaunchConfiguration`. -/
structure LaunchConfiguration where
  LaunchConfigurationName : String
  deriving DecidableEq, Repr

/-- An `ec2.LaunchTemplate`. -/
structure LaunchTemplate where
  LaunchTemplateName : String
  deriving DecidableEq, Repr

/-- An `autoscaling.Tag`, with the fields `GenerateTags` sets. -/
structure Tag where
  Key : String
  Value : String
  deriving DecidableEq, Repr

/-- Modelled from the spec: the declaration of `BlockDevice` is not in the files
at hand.  A block device has a device name, a volume size and a volume type;
`MakeBlockDevices` reads the fields `DeviceName`, `VolumeSize` (an `int64`,
passed to `aws.Int64`) and `VolumeType`. -/
structure BlockDevice where
  DeviceName : String
  VolumeSize : Int
  VolumeType : String
  deriving DecidableEq, Repr

/-- An `autoscaling.Ebs`, with the fields `MakeBlockDevices` sets. -/
structure Ebs where
  VolumeSize : Int
  VolumeType : String
  deriving DecidableEq, Repr

/-- An `autoscaling.BlockDeviceMapping`. -/
structure BlockDeviceMapping where
  DeviceName : String
  Ebs : Ebs
  NoDevice : Option Bool := none
  VirtualName : Option String := none
  deriving DecidableEq, Repr

/-- An `ec2.LaunchTemplateEbsBlockDeviceRequest`. -/
structure LaunchTemplateEbsBlockDeviceRequest where
  VolumeSize : Int
  VolumeType : String
  deriving DecidableEq, Repr

/-- An `ec2.LaunchTemplateBlockDeviceMappingRequest`. -/
structure LaunchTemplateBlockDeviceMappingRequest where
  DeviceName : String
  Ebs : LaunchTemplateEbsBlockDeviceRequest
  NoDevice : Option String := none
  VirtualName : Option String := none
  deriving DecidableEq, Repr

/-- An `elbv2.TargetGroup`, with the field the code reads. -/
structure TargetGroup where
  TargetGroupArn : String
  deriving DecidableEq, Repr

/-- Modelled from the spec: the declaration of `Capacity` is not in the files at
hand.  The capacity bounds of a scaling group are `min`, `max` and `desired`;
`CreateAutoScalingGroup` reads the `int64` fields `Min`, `Max` and `Desired`. -/
structure Capacity where
  Min : Int
  Max : Int
  Desired : Int
  deriving DecidableEq, Repr

/-- An `autoscaling.LaunchTemplateSpecification`. -/
structure LaunchTemplateSpecification where
  LaunchTemplateName : String
  deriving DecidableEq, Repr

/-- An `autoscaling.CreateAutoScalingGroupInput`, with the fields
`CreateAutoScalingGroup` sets.  `LoadBalancerNames` and `TargetGroupARNs` are
`none` while the code has not assigned them. -/
structure CreateAutoScalingGroupInput where
  AutoScalingGroupName : String
  LaunchTemplate : LaunchTemplateSpecification
  MaxSize : Int
  MinSize : Int
  DesiredCapacity : Int
  AvailabilityZones : List String
  HealthCheckType : String
  HealthCheckGracePeriod : Int
  TerminationPolicies : List String
  Tags : List Tag
  VPCZoneIdentifier : String
  LoadBalancerNames : Option (List String) := none
  TargetGroupARNs : Option (List String) := none
  deriving DecidableEq, Repr

/-- A remote request, with the input the code builds for it. -/
inductive Call where
  | DescribeAutoScalingGroups (NextToken : Option String)
  | DescribeLaunchConfigurations (NextToken : Option String)
  | DescribeLaunchTemplates (NextToken : Option String)
  | DeleteLaunchConfiguration (LaunchConfigurationName : String)
  | DeleteLaunchTemplate (LaunchTemplateName : String)
  | DescribeVpcs (Filters : List Filter)
  | DescribeSecurityGroups (Filters : List Filter)
  | DescribeSubnets (Filters : List Filter)
  | DescribeTargetHealth (TargetGroupArn : String)
  | DescribeTargetGroups (Names : List String)
  | DeleteAutoScalingGroup (AutoScalingGroupName : String)
  | CreateAutoScalingGroup (input : CreateAutoScalingGroupInput)
  deriving DecidableEq, Repr

/-- The requests issued so far, oldest first. -/
abbrev History := List Call

/-- What an operation hands back: its outcome and the history it leaves. -/
abbrev Run (α : Type) := Except Abort α × History

/-- An `autoscaling.DescribeAutoScalingGroupsOutput`. -/
structure DescribeAutoScalingGroupsOutput where
  AutoScalingGroups : List Group
  NextToken : Option String

/-- An `autoscaling.DescribeLaunchConfigurationsOutput`. -/
structure DescribeLaunchConfigurationsOutput where
  LaunchConfigurations : List LaunchConfiguration
  NextToken : Option String

/-- An `ec2.DescribeLaunchTemplatesOutput`. -/
structure DescribeLaunchTemplatesOutput where
  LaunchTemplates : List LaunchTemplate
  NextToken : Option String

/-- The `*elbv2.ELBV2` service handle. -/
structure ELBV2 where
  DescribeTargetHealth : History → String → Except Error (List TargetHealthDescription) :=
    fun _ _ => .error "unavailable"
  DescribeTargetGroups : History → List String → Except Error (List TargetGroup) :=
    fun _ _ => .error "unavailable"

/-- The `ELBV2Client` of `pkg/aws/elbv2.go`. -/
structure ELBV2Client where
  Client : ELBV2 := {}

/-- The `*ec2.EC2` service handle.  A delete answers `none` for a nil error. -/
structure EC2 where
  DescribeVpcs : History → List Filter → Except Error (List Vpc) :=
    fun _ _ => .error "unavailable"
  DescribeSecurityGroups : History → List Filter → Except Error (List SecurityGroup) :=
    fun _ _ => .error "unavailable"
  DescribeSubnets : History → List Filter → Except Error (List Subnet) :=
    fun _ _ => .error "unavailable"
  DescribeLaunchTemplates : History → Option String → Except Error DescribeLaunchTemplatesOutput :=
    fun _ _ => .error "unavailable"
  DeleteLaunchTemplate : History → String → Option Error :=
    fun _ _ => some "unavailable"

/-- The `*autoscaling.AutoScaling` service handle. -/
structure AutoScaling where
  DescribeAutoScalingGroups :
      History → Option String → Except Error DescribeAutoScalingGroupsOutput :=
    fun _ _ => .error "unavailable"
  DescribeLaunchConfigurations :
      History → Option String → Except Error DescribeLaunchConfigurationsOutput :=
    fun _ _ => .error "unavailable"
  DeleteLaunchConfiguration : History → String → Option Error :=
    fun _ _ => some "unavailable"
  DeleteAutoScalingGroup : History → String → Option Error :=
    fun _ _ => some "unavailable"
  CreateAutoScalingGroup : History → CreateAutoScalingGroupInput → Option Error :=
    fun _ _ => some "unavailable"

/-- The `EC2Client` of `application/ec2.go`. -/
structure EC2Client where
  Client : EC2 := {}
  AsClient : AutoScaling := {}

/-! ## Library functions and helpers declared outside the files at hand -/

/-- The Go library function `strings.HasPrefix(s, prefix)`. -/
def HasPrefix (s pfx : String) : Bool := pfx.data.isPrefixOf s.data

/-- Pieces of a character list between the occurrences of `sep`. -/
def splitChars (sep : Char) : List Char → List (List Char)
  | [] => [[]]
  | c :: cs =>
    if c = sep then [] :: splitChars sep cs
    else
      match splitChars sep cs with
      | [] => [[c]]
      | piece :: pieces => (c :: piece) :: pieces

/-- The Go library function `strings.Split(s, sep)` for a one-character `sep`. -/
def Split (s : String) (sep : Char) : List String :=
  (splitChars sep s.data).map String.mk

/-- Modelled from the spec: `error_logging` is not in the files at hand.  The
spec has the lookup failures that call it fatal: they "terminate the process
immediately after logging". -/
def error_logging (_msg : String) : Except Abort Unit := .error .exit1

/-- Modelled from the spec: `fatalError` is not in the files at hand.  It is
the fatal end of a failed group enumeration: the process terminates. -/
def fatalError (_err : Error) : Except Abort Unit := .error .exit1

/-- Modelled from the spec: `IsStringInArray` is not in the files at hand.  It
tells whether the string is one of the entries of the array. -/
def IsStringInArray (s : String) (arr : List String) : Bool := arr.any (fun a => a == s)

/-- Modelled from the spec: `MakeStringArrayToAwsStrings` is not in the files at
hand.  It hands the strings of the array over as SDK string pointers, which are
modelled by their values. -/
def MakeStringArrayToAwsStrings (arr : List String) : List String := arr

/-- The Go library function `strings.Join(elems, sep)`. -/
def Join (elems : List String) (sep : String) : String := sep.intercalate elems

/-! ## `pkg/aws/elbv2.go` -/

/-- The loop of `GetTargetGroupARNs`. -/
def targetGroupArnLoop : List TargetGroup → List String → List String
  | [], ret => ret
  | group :: rest, ret => targetGroupArnLoop rest (ret ++ [group.TargetGroupArn])

/-- `ELBV2Client.GetTargetGroupARNs`.  The nil slice it returns for an empty
list of names is the empty list: both have length 0 and no index in range. -/
def GetTargetGroupARNs (e : ELBV2Client) (h : History) (target_groups : List String) :
    Run (List String) :=
  if target_groups.length = 0 then (.ok [], h)
  else
    match e.Client.DescribeTargetGroups h (MakeStringArrayToAwsStrings target_groups) with
    | .error _ =>
      (.error .exit1, h ++ [.DescribeTargetGroups (MakeStringArrayToAwsStrings target_groups)])
    | .ok TargetGroups =>
      (.ok (targetGroupArnLoop TargetGroups []),
        h ++ [.DescribeTargetGroups (MakeStringArrayToAwsStrings target_groups)])


/-- The inner loop of `GetHostInTarget`: the state of the first record whose
target id is the instance id (`break`), the incoming `target_state` when the
records run out. -/
def targetStateLoop (instanceId : String) :
    List TargetHealthDescription → String → String
  | [], target_state => target_state
  | hd :: rest, target_state =>
    if hd.TargetId = instanceId then hd.State
    else targetStateLoop instanceId rest target_state

/-- The outer loop of `GetHostInTarget`: one host appended per instance. -/
def hostLoop (INITIAL_STATUS : String) (descriptions : List TargetHealthDescription) :
    List Instance → List HealthcheckHost → List HealthcheckHost
  | [], ret => ret
  | inst :: rest, ret =>
    let target_state := targetStateLoop inst.InstanceId descriptions INITIAL_STATUS
    hostLoop INITIAL_STATUS descriptions rest
      (ret ++ [{ InstanceId := inst.InstanceId
                 LifecycleState := inst.LifecycleState
                 TargetStatus := target_state
                 HealthStatus := inst.HealthStatus
                 Healthy := inst.LifecycleState == "InService" && target_state == "healthy"
                              && inst.HealthStatus == "Healthy" }])

/-- `ELBV2Client.GetHostInTarget`.  The constant `tool.INITIAL_STATUS` is
declared outside the files at hand and is a parameter. -/
def GetHostInTarget (INITIAL_STATUS : String) (e : ELBV2Client) (h : History)
    (group : Group) (target_group_arn : String) : Run (List HealthcheckHost) :=
  match e.Client.DescribeTargetHealth h target_group_arn with
  | .error _ => (.error .exit1, h ++ [.DescribeTargetHealth target_group_arn])
  | .ok result =>
    (.ok (hostLoop INITIAL_STATUS result group.Instances []),
      h ++ [.DescribeTargetHealth target_group_arn])

/-! ## `application/ec2.go`: enumeration -/

/-- The function `getAutoScalingGroups`: the pages are appended to `asgGroup` and
the fetch recurs with the token of the page while there is one.  `fuel` bounds
the depth of the recursion.  A failed request goes to `fatalError`; the code
after that call would read the output of the failed request, and is not reached,
since `fatalError` does not return. -/
def getAutoScalingGroups (client : AutoScaling) :
    Nat → History → List Group → Option String → Run (List Group)
  | 0, h, _, _ => (.error .outOfFuel, h)
  | fuel + 1, h, asgGroup, nextToken =>
    match client.DescribeAutoScalingGroups h nextToken with
    | .error err =>
      match fatalError err with
      | .error a => (.error a, h ++ [.DescribeAutoScalingGroups nextToken])
      | .ok _ => (.error .panic, h ++ [.DescribeAutoScalingGroups nextToken])
    | .ok ret =>
      let asgGroup := asgGroup ++ ret.AutoScalingGroups
      match ret.NextToken with
      | some token =>
        getAutoScalingGroups client fuel (h ++ [.DescribeAutoScalingGroups nextToken])
          asgGroup (some token)
      | none => (.ok asgGroup, h ++ [.DescribeAutoScalingGroups nextToken])

/-- The loop of `GetAllMatchingAutoscalingGroupsWithPrefix`. -/
def matchingLoop (pfx : String) : List Group → List Group → List Group
  | [], ret => ret
  | asgGroup :: rest, ret =>
    if HasPrefix asgGroup.AutoScalingGroupName pfx then matchingLoop pfx rest (ret ++ [asgGroup])
    else matchingLoop pfx rest ret

/-- `EC2Client.GetAllMatchingAutoscalingGroupsWithPrefix`. -/
def GetAllMatchingAutoscalingGroupsWithPrefix (e : EC2Client) (fuel : Nat) (h : History)
    (pfx : String) : Run (List Group) :=
  match getAutoScalingGroups e.AsClient fuel h [] none with
  | (.error a, h') => (.error a, h')
  | (.ok asgGroups, h') => (.ok (matchingLoop pfx asgGroups []), h')

/-- The function `getAllLaunchConfigurations`: a failed request ends the fetch
with `nil`. -/
def getAllLaunchConfigurations (client : AutoScaling) :
    Nat → History → List LaunchConfiguration → Option String → Run (List LaunchConfiguration)
  | 0, h, _, _ => (.error .outOfFuel, h)
  | fuel + 1, h, lcs, nextToken =>
    match client.DescribeLaunchConfigurations h nextToken with
    | .error _ => (.ok [], h ++ [.DescribeLaunchConfigurations nextToken])
    | .ok ret =>
      let lcs := lcs ++ ret.LaunchConfigurations
      match ret.NextToken with
      | some token =>
        getAllLaunchConfigurations client fuel (h ++ [.DescribeLaunchConfigurations nextToken])
          lcs (some token)
      | none => (.ok lcs, h ++ [.DescribeLaunchConfigurations nextToken])

/-- The function `getAllLaunchTemplates`: a failed request ends the fetch with
`nil`. -/
def getAllLaunchTemplates (client : EC2) :
    Nat → History → List LaunchTemplate → Option String → Run (List LaunchTemplate)
  | 0, h, _, _ => (.error .outOfFuel, h)
  | fuel + 1, h, lts, nextToken =>
    match client.DescribeLaunchTemplates h nextToken with
    | .error _ => (.ok [], h ++ [.DescribeLaunchTemplates nextToken])
    | .ok ret =>
      let lts := lts ++ ret.LaunchTemplates
      match ret.NextToken with
      | some token =>
        getAllLaunchTemplates client fuel (h ++ [.DescribeLaunchTemplates nextToken])
          lts (some token)
      | none => (.ok lts, h ++ [.DescribeLaunchTemplates nextToken])

/-! ## `application/ec2.go`: deletion of launch specs -/

/-- The function `deleteLaunchConfiguration`: the error of the request, `none`
for nil. -/
def deleteLaunchConfiguration (client : AutoScaling) (h : History) (lc_name : String) :
    Option Error × History :=
  (client.DeleteLaunchConfiguration h lc_name, h ++ [.DeleteLaunchConfiguration lc_name])

/-- The function `deleteLaunchTemplate`. -/
def deleteLaunchTemplate (client : EC2) (h : History) (lt_name : String) :
    Option Error × History :=
  (client.DeleteLaunchTemplate h lt_name, h ++ [.DeleteLaunchTemplate lt_name])

/-- The loop of `DeleteLaunchConfigurations`: `return err` on the first failed
deletion, `return nil` after the last configuration. -/
def deleteLaunchConfigurationsLoop (client : AutoScaling) (asg_name : String) :
    History → List LaunchConfiguration → Option Error × History
  | h, [] => (none, h)
  | h, lc :: rest =>
    if HasPrefix lc.LaunchConfigurationName asg_name then
      match deleteLaunchConfiguration client h lc.LaunchConfigurationName with
      | (some err, h') => (some err, h')
      | (none, h') => deleteLaunchConfigurationsLoop client asg_name h' rest
    else deleteLaunchConfigurationsLoop client asg_name h rest

/-- `EC2Client.DeleteLaunchConfigurations`. -/
def DeleteLaunchConfigurations (e : EC2Client) (fuel : Nat) (h : History) (asg_name : String) :
    Run (Option Error) :=
  match getAllLaunchConfigurations e.AsClient fuel h [] none with
  | (.error a, h') => (.error a, h')
  | (.ok lcs, h') =>
    let r := deleteLaunchConfigurationsLoop e.AsClient asg_name h' lcs
    (.ok r.1, r.2)

/-- The loop of `DeleteLaunchTemplates`. -/
def deleteLaunchTemplatesLoop (client : EC2) (asg_name : String) :
    History → List LaunchTemplate → Option Error × History
  | h, [] => (none, h)
  | h, lt :: rest =>
    if HasPrefix lt.LaunchTemplateName asg_name then
      match deleteLaunchTemplate client h lt.LaunchTemplateName with
      | (some err, h') => (some err, h')
      | (none, h') => deleteLaunchTemplatesLoop client asg_name h' rest
    else deleteLaunchTemplatesLoop client asg_name h rest

/-- `EC2Client.DeleteLaunchTemplates`. -/
def DeleteLaunchTemplates (e : EC2Client) (fuel : Nat) (h : History) (asg_name : String) :
    Run (Option Error) :=
  match getAllLaunchTemplates e.Client fuel h [] none with
  | (.error a, h') => (.error a, h')
  | (.ok lts, h') =>
    let r := deleteLaunchTemplatesLoop e.Client asg_name h' lts
    (.ok r.1, r.2)

/-! ## `application/ec2.go`: creation and deletion of a scaling group -/

/-- `EC2Client.DeleteAutoscalingSet`: one `DeleteAutoScalingGroup` request;
`false` when it fails, `true` otherwise. -/
def DeleteAutoscalingSet (e : EC2Client) (h : History) (asg_name : String) : Run Bool :=
  match e.AsClient.DeleteAutoScalingGroup h asg_name with
  | some _ => (.ok false, h ++ [.DeleteAutoScalingGroup asg_name])
  | none => (.ok true, h ++ [.DeleteAutoScalingGroup asg_name])

/-- The request input that `CreateAutoScalingGroup` builds before it submits
the request: the fixed fields, then the load-balancer names and the target-group
references, each assigned after a read of index 0 of its list.  The elements of
`loadbalancers` and `target_group_arns` are SDK string pointers made from strings
and are modelled by their values; a read of index 0 that is out of range is a
run-time panic. -/
def createAutoScalingGroupInput
    (name launch_template_name healthcheck_type : String) (healthcheck_grace_period : Int)
    (capacity : Capacity)
    (loadbalancers target_group_arns termination_policies availability_zones : List String)
    (tags : List Tag) (subnets : List String) : Except Abort CreateAutoScalingGroupInput :=
  let input : CreateAutoScalingGroupInput :=
    { AutoScalingGroupName := name
      LaunchTemplate := { LaunchTemplateName := launch_template_name }
      MaxSize := capacity.Max
      MinSize := capacity.Min
      DesiredCapacity := capacity.Desired
      AvailabilityZones := availability_zones
      HealthCheckType := healthcheck_type
      HealthCheckGracePeriod := healthcheck_grace_period
      TerminationPolicies := termination_policies
      Tags := tags
      VPCZoneIdentifier := Join subnets "," }
  match loadbalancers[0]? with
  | none => .error .panic
  | some loadbalancer =>
    let input :=
      if loadbalancer ≠ "" then { input with LoadBalancerNames := some loadbalancers } else input
    match target_group_arns[0]? with
    | none => .error .panic
    | some target_group_arn =>
      let input :=
        if target_group_arn ≠ "" then { input with TargetGroupARNs := some target_group_arns }
        else input
      .ok input

/-- `EC2Client.CreateAutoScalingGroup`: the input is built, then the request is
submitted; `false` when the request fails, `true` otherwise. -/
def CreateAutoScalingGroup (e : EC2Client) (h : History)
    (name launch_template_name healthcheck_type : String) (healthcheck_grace_period : Int)
    (capacity : Capacity)
    (loadbalancers target_group_arns termination_policies availability_zones : List String)
    (tags : List Tag) (subnets : List String) : Run Bool :=
  match createAutoScalingGroupInput name launch_template_name healthcheck_type
      healthcheck_grace_period capacity loadbalancers target_group_arns termination_policies
      availability_zones tags subnets with
  | .error a => (.error a, h)
  | .ok input =>
    match e.AsClient.CreateAutoScalingGroup h input with
    | some _ => (.ok false, h ++ [.CreateAutoScalingGroup input])
    | none => (.ok true, h ++ [.CreateAutoScalingGroup input])

/-! ## `application/ec2.go`: name resolution -/

/-- The character class `[0-9A-Fa-f]`. -/
def isHexDigit (c : Char) : Bool :=
  (decide ('0' ≤ c) && decide (c ≤ '9')) || (decide ('A' ≤ c) && decide (c ≤ 'F'))
    || (decide ('a' ≤ c) && decide (c ≤ 'f'))

/-- A match of the pattern `vpc-[0-9A-Fa-f]{17}` that starts at the head of the
character list. -/
def vpcPatternMatchesHere (t : List Char) : Bool :=
  "vpc-".data.isPrefixOf t && decide (17 ≤ (t.drop 4).length)
    && ((t.drop 4).take 17).all isHexDigit

/-- A match of the pattern that starts somewhere in the character list. -/
def vpcPatternMatchesIn : List Char → Bool
  | [] => vpcPatternMatchesHere []
  | c :: cs => vpcPatternMatchesHere (c :: cs) || vpcPatternMatchesIn cs

/-- The call `regexp.MatchString("vpc-[0-9A-Fa-f]{17}", vpc)`: the library
reports whether the string contains any match of the pattern.  The pattern
compiles, so the error it returns is nil. -/
def MatchString_vpcPattern (vpc : String) : Bool := vpcPatternMatchesIn vpc.data

/-- The filter list of the `DescribeVpcs` request of `GetVPCId`. -/
def vpcNameFilters (vpc : String) : List Filter :=
  [{ Name := "tag:Name", Values := [vpc] }]

/-- The part of `GetVPCId` after a successful `DescribeVpcs` request. -/
def vpcIdOfResult (vpc : String) (Vpcs : List Vpc) : Except Abort String :=
  match (if Vpcs.length > 1 then
      error_logging ("Expected only one VPC on name lookup for " ++ vpc) else .ok ()) with
  | .error a => .error a
  | .ok _ =>
    match (if Vpcs.length < 1 then
        error_logging ("Unable to find VPC on name lookup for " ++ vpc) else .ok ()) with
    | .error a => .error a
    | .ok _ =>
      match Vpcs[0]? with
      | none => .error .panic
      | some v => .ok v.VpcId

/-- `EC2Client.GetVPCId`. -/
def GetVPCId (e : EC2Client) (h : History) (vpc : String) : Run String :=
  if MatchString_vpcPattern vpc then (.ok vpc, h)
  else
    match e.Client.DescribeVpcs h (vpcNameFilters vpc) with
    | .error _ => (.error .exit1, h ++ [.DescribeVpcs (vpcNameFilters vpc)])
    | .ok result => (vpcIdOfResult vpc result, h ++ [.DescribeVpcs (vpcNameFilters vpc)])

/-- The filter list of the `DescribeSecurityGroups` request of
`GetSecurityGroupList`. -/
def securityGroupFilters (sg vpcId : String) : List Filter :=
  [{ Name := "group-name", Values := [sg] }, { Name := "vpc-id", Values := [vpcId] }]

/-- The loop of `GetSecurityGroupList`. -/
def securityGroupLoop (e : EC2Client) (vpcId : String) :
    History → List String → List String → Run (List String)
  | h, [], retList => (.ok retList, h)
  | h, sg :: rest, retList =>
    if HasPrefix sg "sg-" then securityGroupLoop e vpcId h rest (retList ++ [sg])
    else
      match e.Client.DescribeSecurityGroups h (securityGroupFilters sg vpcId) with
      | .error _ => (.error .exit1, h ++ [.DescribeSecurityGroups (securityGroupFilters sg vpcId)])
      | .ok SecurityGroups =>
        match (if SecurityGroups.length ≠ 1 then
            error_logging ("Expected only one security group on name lookup for " ++ sg)
            else .ok ()) with
        | .error a => (.error a, h ++ [.DescribeSecurityGroups (securityGroupFilters sg vpcId)])
        | .ok _ =>
          match SecurityGroups[0]? with
          | none => (.error .panic, h ++ [.DescribeSecurityGroups (securityGroupFilters sg vpcId)])
          | some g =>
            securityGroupLoop e vpcId
              (h ++ [.DescribeSecurityGroups (securityGroupFilters sg vpcId)]) rest
              (retList ++ [g.GroupId])

/-- `EC2Client.GetSecurityGroupList`. -/
def GetSecurityGroupList (e : EC2Client) (h : History) (vpc : String) (sgList : List String) :
    Run (List String) :=
  match (if sgList.length = 0 then
      error_logging "Need to specify at least one security group" else .ok ()) with
  | .error a => (.error a, h)
  | .ok _ =>
    match GetVPCId e h vpc with
    | (.error a, h') => (.error a, h')
    | (.ok vpcId, h') => securityGroupLoop e vpcId h' sgList []

/-- The filter list of the `DescribeSubnets` requests. -/
def subnetFilters (vpcId : String) : List Filter :=
  [{ Name := "vpc-id", Values := [vpcId] }]

/-- The loop of `GetAvailabilityZones`. -/
def availabilityZoneLoop (azs : List String) : List Subnet → List String → List String
  | [], ret => ret
  | subnet :: rest, ret =>
    if IsStringInArray subnet.AvailabilityZone ret || !IsStringInArray subnet.AvailabilityZone azs
    then availabilityZoneLoop azs rest ret
    else availabilityZoneLoop azs rest (ret ++ [subnet.AvailabilityZone])

/-- `EC2Client.GetAvailabilityZones`. -/
def GetAvailabilityZones (e : EC2Client) (h : History) (vpc : String) (azs : List String) :
    Run (List String) :=
  match GetVPCId e h vpc with
  | (.error a, h') => (.error a, h')
  | (.ok vpcId, h') =>
    match e.Client.DescribeSubnets h' (subnetFilters vpcId) with
    | .error _ => (.error .exit1, h' ++ [.DescribeSubnets (subnetFilters vpcId)])
    | .ok Subnets =>
      (.ok (availabilityZoneLoop azs Subnets []), h' ++ [.DescribeSubnets (subnetFilters vpcId)])

/-- The loop of `GetSubnets` over the tags of one subnet. -/
def subnetTagLoop (subnetType SubnetId : String) : List Ec2Tag → List String → List String
  | [], ret => ret
  | tag :: rest, ret =>
    if tag.Key == "Name" && HasPrefix tag.Value subnetType
    then subnetTagLoop subnetType SubnetId rest (ret ++ [SubnetId])
    else subnetTagLoop subnetType SubnetId rest ret

/-- The loop of `GetSubnets` over the subnets. -/
def subnetLoop (subnetType : String) (azs : List String) : List Subnet → List String → List String
  | [], ret => ret
  | subnet :: rest, ret =>
    if !IsStringInArray subnet.AvailabilityZone azs then subnetLoop subnetType azs rest ret
    else subnetLoop subnetType azs rest (subnetTagLoop subnetType subnet.SubnetId subnet.Tags ret)

/-- `EC2Client.GetSubnets`. -/
def GetSubnets (e : EC2Client) (h : History) (vpc : String) (use_public_subnets : Bool)
    (azs : List String) : Run (List String) :=
  match GetVPCId e h vpc with
  | (.error a, h') => (.error a, h')
  | (.ok vpcId, h') =>
    match e.Client.DescribeSubnets h' (subnetFilters vpcId) with
    | .error _ => (.error .exit1, h' ++ [.DescribeSubnets (subnetFilters vpcId)])
    | .ok Subnets =>
      let subnetType := if use_public_subnets then "public" else "private"
      (.ok (subnetLoop subnetType azs Subnets []), h' ++ [.DescribeSubnets (subnetFilters vpcId)])

/-! ## `application/ec2.go`: block devices and tags -/

/-- The loop of `MakeBlockDevices`. -/
def blockDeviceLoop : List BlockDevice → List BlockDeviceMapping → List BlockDeviceMapping
  | [], ret => ret
  | block :: rest, ret =>
    let bType := if block.VolumeType = "" then "gp2" else block.VolumeType
    let bSize := if block.VolumeSize = 0 then 16 else block.VolumeSize
    blockDeviceLoop rest
      (ret ++ [{ DeviceName := block.DeviceName
                 Ebs := { VolumeSize := bSize, VolumeType := bType }
                 NoDevice := none
                 VirtualName := none }])

/-- `EC2Client.MakeBlockDevices`. -/
def MakeBlockDevices (blocks : List BlockDevice) : List BlockDeviceMapping :=
  blockDeviceLoop blocks []

/-- The loop of `MakeLaunchTemplateBlockDeviceMappings`. -/
def launchTemplateBlockDeviceLoop :
    List BlockDevice → List LaunchTemplateBlockDeviceMappingRequest →
      List LaunchTemplateBlockDeviceMappingRequest
  | [], ret => ret
  | block :: rest, ret =>
    let bType := if block.VolumeType = "" then "gp2" else block.VolumeType
    let bSize := if block.VolumeSize = 0 then 16 else block.VolumeSize
    launchTemplateBlockDeviceLoop rest
      (ret ++ [{ DeviceName := block.DeviceName
                 Ebs := { VolumeSize := bSize, VolumeType := bType }
                 NoDevice := none
                 VirtualName := none }])

/-- `EC2Client.MakeLaunchTemplateBlockDeviceMappings`. -/
def MakeLaunchTemplateBlockDeviceMappings (blocks : List BlockDevice) :
    List LaunchTemplateBlockDeviceMappingRequest :=
  launchTemplateBlockDeviceLoop blocks []

/-- The loop of `GenerateTags`: `arr[0]` and `arr[1]` of the split entry; an
index out of range is a run-time panic. -/
def generateTagsLoop : List String → List Tag → Except Abort (List Tag)
  | [], ret => .ok ret
  | tagKV :: rest, ret =>
    let arr := Split tagKV '='
    match arr[0]? with
    | none => .error .panic
    | some k =>
      match arr[1]? with
      | none => .error .panic
      | some v => generateTagsLoop rest (ret ++ [{ Key := k, Value := v }])

/-- `EC2Client.GenerateTags`. -/
def GenerateTags (tagList : List String) (asg_name app stack : String) :
    Except Abort (List Tag) :=
  match generateTagsLoop tagList [] with
  | .error a => .error a
  | .ok ret =>
    let ret := ret ++ [{ Key := "Name", Value := asg_name }]
    let ret := ret ++ [{ Key := "app", Value := app }]
    let ret := ret ++ [{ Key := "stack", Value := stack }]
    .ok ret

/-! ## The health evaluation, as the specification words it -/

/-- The target status the specification gives an instance: the state of the
first target-health record with the instance's id, the sentinel otherwise. -/
def specTargetStatus (INITIAL_STATUS : String) (descriptions : List TargetHealthDescription)
    (inst : Instance) : String :=
  match descriptions.find? (fun hd => hd.TargetId == inst.InstanceId) with
  | some hd => hd.State
  | none => INITIAL_STATUS

/-- The relation between a group instance and the host reported for it. -/
def HostOf (INITIAL_STATUS : String) (descriptions : List TargetHealthDescription)
    (inst : Instance) (host : HealthcheckHost) : Prop :=
  host.InstanceId = inst.InstanceId ∧
  host.LifecycleState = inst.LifecycleState ∧
  host.HealthStatus = inst.HealthStatus ∧
  host.TargetStatus = specTargetStatus INITIAL_STATUS descriptions inst ∧
  (host.Healthy = true ↔
    inst.LifecycleState = "InService" ∧ host.TargetStatus = "healthy" ∧
      inst.HealthStatus = "Healthy")

/-! ## Paginated listings, as the specification words them -/

/-- The remote delivers `pages` as a chain that starts with the request of token
`tok` at history `h`: every page but the last comes with a continuation token,
and the request that passes this token is answered with the next page. -/
def ServesPages (client : AutoScaling) : History → Option String → List (List Group) → Prop
  | _, _, [] => False
  | h, tok, [page] =>
    client.DescribeAutoScalingGroups h tok
      = .ok { AutoScalingGroups := page, NextToken := none }
  | h, tok, page :: next :: rest =>
    ∃ token, client.DescribeAutoScalingGroups h tok
        = .ok { AutoScalingGroups := page, NextToken := some token } ∧
      ServesPages client (h ++ [.DescribeAutoScalingGroups tok]) (some token) (next :: rest)

/-- The remote delivers the launch configurations `pages` as a chain that starts
with the request of token `tok` at history `h`: every page but the last comes
with a continuation token, and the request that passes this token is answered
with the next page. -/
def ServesLaunchConfigurationPages (client : AutoScaling) :
    History → Option String → List (List LaunchConfiguration) → Prop
  | _, _, [] => False
  | h, tok, [page] =>
    client.DescribeLaunchConfigurations h tok
      = .ok { LaunchConfigurations := page, NextToken := none }
  | h, tok, page :: next :: rest =>
    ∃ token, client.DescribeLaunchConfigurations h tok
        = .ok { LaunchConfigurations := page, NextToken := some token } ∧
      ServesLaunchConfigurationPages client (h ++ [.DescribeLaunchConfigurations tok])
        (some token) (next :: rest)

/-- The same for a chain of pages of launch templates. -/
def ServesLaunchTemplatePages (client : EC2) :
    History → Option String → List (List LaunchTemplate) → Prop
  | _, _, [] => False
  | h, tok, [page] =>
    client.DescribeLaunchTemplates h tok = .ok { LaunchTemplates := page, NextToken := none }
  | h, tok, page :: next :: rest =>
    ∃ token, client.DescribeLaunchTemplates h tok
        = .ok { LaunchTemplates := page, NextToken := some token } ∧
      ServesLaunchTemplatePages client (h ++ [.DescribeLaunchTemplates tok])
        (some token) (next :: rest)

/-- The remote answers the chain of launch-configuration requests that starts
with the token `tok` at history `h` with the pages `pages`, each of them with a
continuation token, and fails the request that follows the last of them. -/
def LaunchConfigurationPagesThenFailure (client : AutoScaling) :
    History → Option String → List (List LaunchConfiguration) → Prop
  | h, tok, [] => ∃ err : Error, client.DescribeLaunchConfigurations h tok = .error err
  | h, tok, page :: rest =>
    ∃ token, client.DescribeLaunchConfigurations h tok
        = .ok { LaunchConfigurations := page, NextToken := some token } ∧
      LaunchConfigurationPagesThenFailure client (h ++ [.DescribeLaunchConfigurations tok])
        (some token) rest

/-- The same for the chain of launch-template requests. -/
def LaunchTemplatePagesThenFailure (client : EC2) :
    History → Option String → List (List LaunchTemplate) → Prop
  | h, tok, [] => ∃ err : Error, client.DescribeLaunchTemplates h tok = .error err
  | h, tok, page :: rest =>
    ∃ token, client.DescribeLaunchTemplates h tok
        = .ok { LaunchTemplates := page, NextToken := some token } ∧
      LaunchTemplatePagesThenFailure client (h ++ [.DescribeLaunchTemplates tok])
        (some token) rest

/-! ## Tags and block devices, as the specification words them -/

/-- The key of an entry `key=value`: the text before the first `=`. -/
def entryKey (tagKV : String) : String :=
  String.mk (tagKV.data.takeWhile (fun c => c != '='))

/-- The value of an entry `key=value`: the text after the first `=`, up to the
second `=` when there is one. -/
def entryValue (tagKV : String) : String :=
  String.mk (((tagKV.data.dropWhile (fun c => c != '=')).drop 1).takeWhile (fun c => c != '='))

/-- The volume type a mapping is given: "gp2" for an empty input type. -/
def defaultedVolumeType (block : BlockDevice) : String :=
  if block.VolumeType = "" then "gp2" else block.VolumeType

/-- The volume size a mapping is given: 16 for an unset (zero) input size. -/
def defaultedVolumeSize (block : BlockDevice) : Int :=
  if block.VolumeSize = 0 then 16 else block.VolumeSize

/-! ## Name resolution, as the specification words it -/

/-- The canonical shape of a VPC id: the literal "vpc-" followed by exactly 17
hexadecimal characters. -/
def isCanonicalVpcId (vpc : String) : Bool :=
  "vpc-".data.isPrefixOf vpc.data && vpc.data.length == 21 && (vpc.data.drop 4).all isHexDigit

/-- The requests `GetSecurityGroupList` has to issue for a list of names: one
`DescribeSecurityGroups` request, filtered on group-name and vpc-id, for every
name that does not start with "sg-", in the order of the names. -/
def securityGroupLookups (vpcId : String) (sgList : List String) : List Call :=
  (sgList.filter (fun sg => !HasPrefix sg "sg-")).map
    (fun sg => Call.DescribeSecurityGroups [{ Name := "group-name", Values := [sg] },
                                            { Name := "vpc-id", Values := [vpcId] }])

/-! ## Deletion of launch specs, as the specification words it -/

/-- Deleting the given names in order up to the first failure: the error of that
failure (`none` when every deletion went through) and the history left behind.
`del` is the delete request of the service and `mk` the entry it leaves in the
history. -/
def deleteInOrder (del : History → String → Option Error) (mk : String → Call) :
    History → List String → Option Error × History
  | h, [] => (none, h)
  | h, name :: rest =>
    match del h name with
    | some err => (some err, h ++ [mk name])
    | none => deleteInOrder del mk (h ++ [mk name]) rest

/-- The names that have the group name as a prefix, in enumeration order. -/
def matchingNames (asg_name : String) (names : List String) : List String :=
  names.filter (fun name => HasPrefix name asg_name)

/-- What the specification asks of a deletion run `run` that starts at history
`h0` and has `names` to delete: the delete requests issued are an initial
segment of `names`; when the `k`-th deletion is the first to fail, its error is
returned and the requests stop with it; when none fails, every name is deleted
once and nil is returned. -/
def AbortsOnFirstFailure (del : History → String → Option Error) (mk : String → Call)
    (h0 : History) (names : List String) (run : Run (Option Error)) : Prop :=
  (∃ k : Nat, k ≤ names.length ∧ run.2 = h0 ++ (names.take k).map mk) ∧
  (∀ (k : Nat) (name : String) (err : Error), names[k]? = some name →
    (∀ (j : Nat) (nj : String), j < k → names[j]? = some nj →
      del (h0 ++ (names.take j).map mk) nj = none) →
    del (h0 ++ (names.take k).map mk) name = some err →
    run = (.ok (some err), h0 ++ (names.take (k + 1)).map mk)) ∧
  ((∀ (j : Nat) (nj : String), names[j]? = some nj →
      del (h0 ++ (names.take j).map mk) nj = none) →
    run = (.ok none, h0 ++ names.map mk))

/-! ## Sample remotes -/

/-- A target group that knows instance `A` only. -/
def sampleELB : ELBV2Client :=
  { Client := { DescribeTargetHealth := fun _ _ => .ok [{ TargetId := "A", State := "healthy" }] } }

/-- A group with the instances `A` (in service) and `B` (pending). -/
def sampleGroup : Group :=
  { AutoScalingGroupName := "app-v001"
    Instances := [{ InstanceId := "A", LifecycleState := "InService", HealthStatus := "Healthy" },
                  { InstanceId := "B", LifecycleState := "Pending", HealthStatus := "Healthy" }] }

/-- Three pages of two groups each, chained by the tokens `t1` and `t2`. -/
def samplePages : List (List Group) :=
  [[{ AutoScalingGroupName := "app-v001" }, { AutoScalingGroupName := "web-v001" }],
   [{ AutoScalingGroupName := "app-v002" }, { AutoScalingGroupName := "ap" }],
   [{ AutoScalingGroupName := "web-v002" }, { AutoScalingGroupName := "app-v003" }]]

/-- A remote that serves `samplePages`. -/
def samplePager : EC2Client :=
  { AsClient :=
    { DescribeAutoScalingGroups := fun _ tok =>
        match tok with
        | none => .ok { AutoScalingGroups := samplePages[0]!, NextToken := some "t1" }
        | some t =>
          if t = "t1" then .ok { AutoScalingGroups := samplePages[1]!, NextToken := some "t2" }
          else if t = "t2" then .ok { AutoScalingGroups := samplePages[2]!, NextToken := none }
          else .error "InvalidNextToken" } }

/-- A remote with one VPC named `main`, two VPCs named `shared`, none of any
other name, and a failing request for the name `down`. -/
def sampleNetwork : EC2Client :=
  { Client :=
    { DescribeVpcs := fun _ filters =>
        if filters = [{ Name := "tag:Name", Values := ["main"] }] then
          .ok [{ VpcId := "vpc-0123456789abcdef0" }]
        else if filters = [{ Name := "tag:Name", Values := ["shared"] }] then
          .ok [{ VpcId := "vpc-0000000000000000a" }, { VpcId := "vpc-0000000000000000b" }]
        else if filters = [{ Name := "tag:Name", Values := ["down"] }] then .error "RequestLimitExceeded"
        else .ok []
      DescribeSecurityGroups := fun _ filters =>
        if filters = [{ Name := "group-name", Values := ["web"] },
                      { Name := "vpc-id", Values := ["vpc-0123456789abcdef0"] }] then
          .ok [{ GroupId := "sg-0000000000000web", GroupName := "web" }]
        else .ok []
      DescribeSubnets := fun _ filters =>
        if filters = [{ Name := "vpc-id", Values := ["vpc-0123456789abcdef0"] }] then
          .ok [{ SubnetId := "subnet-a1", AvailabilityZone := "zone-a"
                 Tags := [{ Key := "Name", Value := "private-a" }] },
               { SubnetId := "subnet-c1", AvailabilityZone := "zone-c"
                 Tags := [{ Key := "Name", Value := "public-c" }, { Key := "tier", Value := "public" },
                          { Key := "Name", Value := "public-c-alt" }] },
               { SubnetId := "subnet-a2", AvailabilityZone := "zone-a"
                 Tags := [{ Key := "Name", Value := "public-a" }] },
               { SubnetId := "subnet-b1", AvailabilityZone := "zone-b"
                 Tags := [{ Key := "Name", Value := "public-b" }] }]
        else .ok [] } }

/-- A remote with four launch configurations and four launch templates, three
of each named after the group `app`; the deletion of the second of the three
fails. -/
def sampleLaunchSpecs : EC2Client :=
  { AsClient :=
    { DescribeLaunchConfigurations := fun _ _ =>
        .ok { LaunchConfigurations :=
                [{ LaunchConfigurationName := "app-v001" }, { LaunchConfigurationName := "web-v001" },
                 { LaunchConfigurationName := "app-v002" }, { LaunchConfigurationName := "app-v003" }]
              NextToken := none }
      DeleteLaunchConfiguration := fun _ name =>
        if name = "app-v002" then some "ResourceInUse" else none }
    Client :=
    { DescribeLaunchTemplates := fun _ _ =>
        .ok { LaunchTemplates :=
                [{ LaunchTemplateName := "app-v001" }, { LaunchTemplateName := "web-v001" },
                 { LaunchTemplateName := "app-v002" }, { LaunchTemplateName := "app-v003" }]
              NextToken := none }
      DeleteLaunchTemplate := fun _ name =>
        if name = "app-v002" then some "InvalidLaunchTemplateName" else none } }

/-- A remote that accepts every request to create or to delete a scaling group,
and that has the launch configurations of `sampleLaunchSpecs`. -/
def sampleScaling : EC2Client :=
  { AsClient :=
    { DescribeLaunchConfigurations := sampleLaunchSpecs.AsClient.DescribeLaunchConfigurations
      DeleteLaunchConfiguration := fun _ _ => none
      DeleteAutoScalingGroup := fun _ _ => none
      CreateAutoScalingGroup := fun _ _ => none } }

/-- A remote that serves a first page of two launch configurations and of two
launch templates, and fails every request that passes a token. -/
def sampleBrokenPager : EC2Client :=
  { AsClient :=
    { DescribeLaunchConfigurations := fun _ tok =>
        match tok with
        | none =>
          .ok { LaunchConfigurations :=
                  [{ LaunchConfigurationName := "app-v001" },
                   { LaunchConfigurationName := "app-v002" }]
                NextToken := some "t1" }
        | some _ => .error "InvalidNextToken" }
    Client :=
    { DescribeLaunchTemplates := fun _ tok =>
        match tok with
        | none =>
          .ok { LaunchTemplates :=
                  [{ LaunchTemplateName := "app-v001" }, { LaunchTemplateName := "app-v002" }]
                NextToken := some "t1" }
        | some _ => .error "InvalidNextToken" } }

/-- A remote that lists four launch configurations and four launch templates in
two pages chained by the token `t1`; three of each are named after the group
`app`, and the deletion of the second of the three fails. -/
def samplePagedLaunchSpecs : EC2Client :=
  { AsClient :=
    { DescribeLaunchConfigurations := fun _ tok =>
        match tok with
        | none =>
          .ok { LaunchConfigurations :=
                  [{ LaunchConfigurationName := "app-v001" },
                   { LaunchConfigurationName := "web-v001" }]
                NextToken := some "t1" }
        | some t =>
          if t = "t1" then
            .ok { LaunchConfigurations :=
                    [{ LaunchConfigurationName := "app-v002" },
                     { LaunchConfigurationName := "app-v003" }]
                  NextToken := none }
          else .error "InvalidNextToken"
      DeleteLaunchConfiguration := fun _ name =>
        if name = "app-v002" then some "ResourceInUse" else none }
    Client :=
    { DescribeLaunchTemplates := fun _ tok =>
        match tok with
        | none =>
          .ok { LaunchTemplates :=
                  [{ LaunchTemplateName := "app-v001" }, { LaunchTemplateName := "web-v001" }]
                NextToken := some "t1" }
        | some t =>
          if t = "t1" then
            .ok { LaunchTemplates :=
                    [{ LaunchTemplateName := "app-v002" }, { LaunchTemplateName := "app-v003" }]
                  NextToken := none }
          else .error "InvalidNextToken"
      DeleteLaunchTemplate := fun _ name =>
        if name = "app-v002" then some "InvalidLaunchTemplateName" else none } }

/-- A remote with exactly one VPC whose `Name` tag is
"vpc-0123456789abcdef0-staging". -/
def sampleStagingVpc : EC2Client :=
  { Client :=
    { DescribeVpcs := fun _ filters =>
        if filters = [{ Name := "tag:Name", Values := ["vpc-0123456789abcdef0-staging"] }] then
          .ok [{ VpcId := "vpc-0fedcba9876543210" }]
        else .ok [] } }

/-! # Theorems -/

/-! ## Health evaluation -/

theorem targetStateLoop_eq (INITIAL_STATUS : String) (inst : Instance)
    (descriptions : List TargetHealthDescription) :
    targetStateLoop inst.InstanceId descriptions INITIAL_STATUS
      = specTargetStatus INITIAL_STATUS descriptions inst := by
  induction descriptions with
  | nil => rfl
  | cons hd rest ih =>
    unfold specTargetStatus at ih ⊢
    by_cases hid : hd.TargetId = inst.InstanceId
    · simp [targetStateLoop, hid]
    · have hne : (hd.TargetId == inst.InstanceId) = false := by simpa using hid
      simp only [targetStateLoop, if_neg hid, ih]
      rw [List.find?_cons_of_neg _ (by simp [hne])]

theorem hostLoop_forall₂ (INITIAL_STATUS : String) (descriptions : List TargetHealthDescription)
    (insts : List Instance) :
    ∀ (done : List Instance) (ret : List HealthcheckHost),
      List.Forall₂ (HostOf INITIAL_STATUS descriptions) done ret →
      List.Forall₂ (HostOf INITIAL_STATUS descriptions) (done ++ insts)
        (hostLoop INITIAL_STATUS descriptions insts ret) := by
  induction insts with
  | nil => intro done ret hdone; simpa [hostLoop] using hdone
  | cons inst rest ih =>
    intro done ret hdone
    have hstep : List.Forall₂ (HostOf INITIAL_STATUS descriptions) (done ++ [inst])
        (ret ++ [{ InstanceId := inst.InstanceId
                   LifecycleState := inst.LifecycleState
                   TargetStatus := targetStateLoop inst.InstanceId descriptions INITIAL_STATUS
                   HealthStatus := inst.HealthStatus
                   Healthy := inst.LifecycleState == "InService"
                     && targetStateLoop inst.InstanceId descriptions INITIAL_STATUS == "healthy"
                     && inst.HealthStatus == "Healthy" }]) := by
      refine List.rel_append hdone (List.Forall₂.cons ?_ List.Forall₂.nil)
      refine ⟨rfl, rfl, rfl, targetStateLoop_eq _ _ _, ?_⟩
      simp [and_assoc]
    have := ih (done ++ [inst]) _ hstep
    simpa [hostLoop] using this

/-- C1. Given the target-health response of the remote, `GetHostInTarget`
returns one `HealthcheckHost` per group instance, in the group's instance order;
each host carries the instance's id, lifecycle state and health status, its
`TargetStatus` is the state of the first target-health record whose target id is
the instance id or the `INITIAL_STATUS` sentinel when there is none, and its
`Healthy` flag is true exactly when the lifecycle state is "InService", the
target status is "healthy" and the health status is "Healthy". -/
theorem GetHostInTarget_spec (INITIAL_STATUS : String) (e : ELBV2Client) (h : History)
    (group : Group) (target_group_arn : String) (result : List TargetHealthDescription)
    (hresult : e.Client.DescribeTargetHealth h target_group_arn = .ok result) :
    ∃ hosts : List HealthcheckHost,
      (GetHostInTarget INITIAL_STATUS e h group target_group_arn).1 = .ok hosts ∧
      hosts.length = group.Instances.length ∧
      List.Forall₂ (HostOf INITIAL_STATUS result) group.Instances hosts := by
  have hall := hostLoop_forall₂ INITIAL_STATUS result group.Instances [] [] List.Forall₂.nil
  refine ⟨hostLoop INITIAL_STATUS result group.Instances [], ?_, ?_, ?_⟩
  · simp [GetHostInTarget, hresult]
  · simpa using hall.length_eq.symm
  · simpa using hall

/-- The specification's example: `A` is healthy; `B`, which has no target-health
record, gets the sentinel and is not healthy. -/
theorem GetHostInTarget_spec_witness :
    sampleELB.Client.DescribeTargetHealth [] "arn" = .ok [{ TargetId := "A", State := "healthy" }] ∧
    (GetHostInTarget "initial" sampleELB [] sampleGroup "arn").1
      = .ok [{ InstanceId := "A", LifecycleState := "InService", TargetStatus := "healthy",
               HealthStatus := "Healthy", Healthy := true },
             { InstanceId := "B", LifecycleState := "Pending", TargetStatus := "initial",
               HealthStatus := "Healthy", Healthy := false }] ∧
    ∃ hosts : List HealthcheckHost,
      (GetHostInTarget "initial" sampleELB [] sampleGroup "arn").1 = .ok hosts ∧
      hosts.length = sampleGroup.Instances.length ∧
      List.Forall₂ (HostOf "initial" [{ TargetId := "A", State := "healthy" }])
        sampleGroup.Instances hosts :=
  ⟨rfl, rfl, GetHostInTarget_spec "initial" sampleELB [] sampleGroup "arn" _ rfl⟩

/-! ## Prefix search over a paginated listing -/

theorem matchingLoop_eq (pfx : String) (asgGroups : List Group) :
    ∀ ret : List Group,
      matchingLoop pfx asgGroups ret
        = ret ++ asgGroups.filter (fun g => HasPrefix g.AutoScalingGroupName pfx) := by
  induction asgGroups with
  | nil => intro ret; simp [matchingLoop]
  | cons g rest ih =>
    intro ret
    by_cases hp : HasPrefix g.AutoScalingGroupName pfx = true
    · simp [matchingLoop, hp, ih]
    · simp [matchingLoop, hp, ih]

theorem getAutoScalingGroups_pages (client : AutoScaling) (pages : List (List Group)) :
    ∀ (fuel : Nat) (h : History) (asgGroup : List Group) (tok : Option String),
      ServesPages client h tok pages → pages.length ≤ fuel →
      ∃ calls : List Call, calls.length = pages.length ∧
        getAutoScalingGroups client fuel h asgGroup tok
          = (.ok (asgGroup ++ pages.flatten), h ++ calls) := by
  induction pages with
  | nil => intro fuel h asgGroup tok hs; exact absurd hs (by simp [ServesPages])
  | cons page rest ih =>
    intro fuel h asgGroup tok hs hfuel
    cases fuel with
    | zero => simp at hfuel
    | succ fuel =>
      cases rest with
      | nil =>
        refine ⟨[.DescribeAutoScalingGroups tok], rfl, ?_⟩
        simp only [ServesPages] at hs
        simp [getAutoScalingGroups, hs]
      | cons next rest =>
        obtain ⟨token, hpage, hrest⟩ := hs
        obtain ⟨calls, hlen, hrun⟩ :=
          ih fuel (h ++ [.DescribeAutoScalingGroups tok]) (asgGroup ++ page) (some token) hrest
            (by simpa using hfuel)
        refine ⟨.DescribeAutoScalingGroups tok :: calls, by simp [hlen], ?_⟩
        simp [getAutoScalingGroups, hpage, hrun]

/-- C2. When the remote delivers a listing as a finite chain of pages (each page
but the last with a continuation token, the next page being the answer to the
request that passes that token), `GetAllMatchingAutoscalingGroupsWithPrefix`
returns exactly the groups of the concatenation of all pages, in page order,
whose name has the prefix as a literal prefix, after one request per page. -/
theorem GetAllMatchingAutoscalingGroupsWithPrefix_spec (e : EC2Client) (fuel : Nat)
    (h : History) (pfx : String) (pages : List (List Group))
    (hserve : ServesPages e.AsClient h none pages) (hfuel : pages.length ≤ fuel) :
    (GetAllMatchingAutoscalingGroupsWithPrefix e fuel h pfx).1
      = .ok (pages.flatten.filter (fun g => HasPrefix g.AutoScalingGroupName pfx)) ∧
    ∃ calls : List Call, calls.length = pages.length ∧
      (GetAllMatchingAutoscalingGroupsWithPrefix e fuel h pfx).2 = h ++ calls := by
  obtain ⟨calls, hlen, hrun⟩ := getAutoScalingGroups_pages e.AsClient pages fuel h [] none hserve hfuel
  refine ⟨?_, calls, hlen, ?_⟩
  · simp [GetAllMatchingAutoscalingGroupsWithPrefix, hrun, matchingLoop_eq]
  · simp [GetAllMatchingAutoscalingGroupsWithPrefix, hrun]

/-- Three pages of two groups each: the three groups named `app…` come back, in
page order. -/
theorem GetAllMatchingAutoscalingGroupsWithPrefix_spec_witness :
    ServesPages samplePager.AsClient [] none samplePages ∧ samplePages.length ≤ 3 ∧
    (GetAllMatchingAutoscalingGroupsWithPrefix samplePager 3 [] "app").1
      = .ok [{ AutoScalingGroupName := "app-v001" }, { AutoScalingGroupName := "app-v002" },
             { AutoScalingGroupName := "app-v003" }] ∧
    ((GetAllMatchingAutoscalingGroupsWithPrefix samplePager 3 [] "app").1
      = .ok (samplePages.flatten.filter (fun g => HasPrefix g.AutoScalingGroupName "app")) ∧
    ∃ calls : List Call, calls.length = samplePages.length ∧
      (GetAllMatchingAutoscalingGroupsWithPrefix samplePager 3 [] "app").2 = [] ++ calls) :=
  ⟨⟨"t1", rfl, "t2", rfl, rfl⟩, by decide, rfl,
    GetAllMatchingAutoscalingGroupsWithPrefix_spec samplePager 3 [] "app" samplePages
      ⟨"t1", rfl, "t2", rfl, rfl⟩ (by decide)⟩

/-! ## Tag generation -/

theorem splitChars_eq (sep : Char) (cs : List Char) :
    splitChars sep cs
      = cs.takeWhile (fun c => c != sep) ::
        (match cs.dropWhile (fun c => c != sep) with
          | [] => []
          | _ :: tl => splitChars sep tl) := by
  induction cs with
  | nil => rfl
  | cons c cs ih =>
    by_cases hc : c = sep
    · simp [splitChars, hc]
    · have hne : (c != sep) = true := by simpa using hc
      rw [splitChars, if_neg hc, ih]
      simp [List.takeWhile_cons, List.dropWhile_cons, hne]

theorem Split_zero (tagKV : String) : (Split tagKV '=')[0]? = some (entryKey tagKV) := by
  unfold Split entryKey
  rw [splitChars_eq]
  simp

theorem Split_one (tagKV : String) (heq : '=' ∈ tagKV.data) :
    (Split tagKV '=')[1]? = some (entryValue tagKV) := by
  unfold Split entryValue
  rw [splitChars_eq]
  have hne : tagKV.data.dropWhile (fun c => c != '=') ≠ [] := by
    intro hnil
    rw [List.dropWhile_eq_nil_iff] at hnil
    have := hnil _ heq
    simp at this
  cases hd : tagKV.data.dropWhile (fun c => c != '=') with
  | nil => exact absurd hd hne
  | cons x tl =>
    simp only [List.map_cons, List.drop_succ_cons, List.drop_zero]
    rw [splitChars_eq]
    simp

theorem generateTagsLoop_eq (tagList : List String)
    (hwf : ∀ tagKV ∈ tagList, '=' ∈ tagKV.data) :
    ∀ ret : List Tag,
      generateTagsLoop tagList ret
        = .ok (ret ++ tagList.map (fun tagKV =>
            { Key := entryKey tagKV, Value := entryValue tagKV })) := by
  induction tagList with
  | nil => intro ret; simp [generateTagsLoop]
  | cons tagKV rest ih =>
    intro ret
    have h1 := Split_one tagKV (hwf tagKV (List.mem_cons_self _ _))
    have hrest := ih (fun kv hkv => hwf kv (List.mem_cons_of_mem _ hkv))
    simp only [generateTagsLoop, Split_zero, h1, hrest]
    simp

/-- C3, amended. For every tag list each of whose entries contains a "=", and
all `asg_name`, `app`, `stack`, `GenerateTags` returns a list of length
`len(tagList) + 3`: the caller's pairs in input order (the key is the text before
the first "=", the value the text after it up to the next "="), followed by
(Name, asg_name), (app, app), (stack, stack) in that order, whether or not the
keys Name, app or stack appear in the input. -/
theorem GenerateTags_spec (tagList : List String) (asg_name app stack : String)
    (hwf : ∀ tagKV ∈ tagList, '=' ∈ tagKV.data) :
    GenerateTags tagList asg_name app stack
      = .ok (tagList.map (fun tagKV => { Key := entryKey tagKV, Value := entryValue tagKV })
          ++ [{ Key := "Name", Value := asg_name }, { Key := "app", Value := app },
              { Key := "stack", Value := stack }]) ∧
    ∃ tags : List Tag, GenerateTags tagList asg_name app stack = .ok tags ∧
      tags.length = tagList.length + 3 := by
  have heq := generateTagsLoop_eq tagList hwf []
  have hrun : GenerateTags tagList asg_name app stack
      = .ok (tagList.map (fun tagKV => { Key := entryKey tagKV, Value := entryValue tagKV })
          ++ [{ Key := "Name", Value := asg_name }, { Key := "app", Value := app },
              { Key := "stack", Value := stack }]) := by
    simp [GenerateTags, heq]
  exact ⟨hrun, _, hrun, by simp⟩

/-- A tag list that already has the keys `Name` and `app`: both entries stay,
and the three synthesized tags follow. -/
theorem GenerateTags_spec_witness :
    (∀ tagKV ∈ ["env=prod", "Name=mine", "app=x=y"], '=' ∈ tagKV.data) ∧
    GenerateTags ["env=prod", "Name=mine", "app=x=y"] "asg-v001" "shop" "prod"
      = .ok [{ Key := "env", Value := "prod" }, { Key := "Name", Value := "mine" },
             { Key := "app", Value := "x" }, { Key := "Name", Value := "asg-v001" },
             { Key := "app", Value := "shop" }, { Key := "stack", Value := "prod" }] ∧
    (GenerateTags ["env=prod", "Name=mine", "app=x=y"] "asg-v001" "shop" "prod"
      = .ok (["env=prod", "Name=mine", "app=x=y"].map
            (fun tagKV => { Key := entryKey tagKV, Value := entryValue tagKV })
          ++ [{ Key := "Name", Value := "asg-v001" }, { Key := "app", Value := "shop" },
              { Key := "stack", Value := "prod" }]) ∧
    ∃ tags : List Tag,
      GenerateTags ["env=prod", "Name=mine", "app=x=y"] "asg-v001" "shop" "prod" = .ok tags ∧
      tags.length = ["env=prod", "Name=mine", "app=x=y"].length + 3) :=
  ⟨by decide, rfl,
    GenerateTags_spec ["env=prod", "Name=mine", "app=x=y"] "asg-v001" "shop" "prod" (by decide)⟩

/-- C3 as stated fails: for the one-entry tag list `["novalue"]` the read of
`arr[1]` is out of range and no list of length 1 + 3 is returned. -/
theorem GenerateTags_counterexample :
    GenerateTags ["novalue"] "asg-v001" "shop" "prod" = .error .panic ∧
    ¬ ∃ tags : List Tag, GenerateTags ["novalue"] "asg-v001" "shop" "prod" = .ok tags ∧
        tags.length = ["novalue"].length + 3 := by
  have hrun : GenerateTags ["novalue"] "asg-v001" "shop" "prod" = .error .panic := rfl
  refine ⟨hrun, ?_⟩
  rintro ⟨tags, htags, -⟩
  rw [hrun] at htags
  cases htags

/-! ## Block-device mappings -/

theorem blockDeviceLoop_eq (blocks : List BlockDevice) :
    ∀ ret : List BlockDeviceMapping,
      blockDeviceLoop blocks ret
        = ret ++ blocks.map (fun block =>
            { DeviceName := block.DeviceName
              Ebs := { VolumeSize := defaultedVolumeSize block
                       VolumeType := defaultedVolumeType block } }) := by
  induction blocks with
  | nil => intro ret; simp [blockDeviceLoop]
  | cons block rest ih =>
    intro ret
    simp [blockDeviceLoop, ih, defaultedVolumeSize, defaultedVolumeType]

theorem launchTemplateBlockDeviceLoop_eq (blocks : List BlockDevice) :
    ∀ ret : List LaunchTemplateBlockDeviceMappingRequest,
      launchTemplateBlockDeviceLoop blocks ret
        = ret ++ blocks.map (fun block =>
            { DeviceName := block.DeviceName
              Ebs := { VolumeSize := defaultedVolumeSize block
                       VolumeType := defaultedVolumeType block } }) := by
  induction blocks with
  | nil => intro ret; simp [launchTemplateBlockDeviceLoop]
  | cons block rest ih =>
    intro ret
    simp [launchTemplateBlockDeviceLoop, ih, defaultedVolumeSize, defaultedVolumeType]

theorem defaultedVolumeType_ne (block : BlockDevice) : defaultedVolumeType block ≠ "" := by
  unfold defaultedVolumeType
  split
  · decide
  · assumption

theorem defaultedVolumeSize_ne (block : BlockDevice) : defaultedVolumeSize block ≠ 0 := by
  unfold defaultedVolumeSize
  split
  · decide
  · assumption

/-- C4. `MakeBlockDevices` and `MakeLaunchTemplateBlockDeviceMappings` each emit
one mapping per input block, in input order and with the input device name; the
volume type is "gp2" for an empty input type and the input type otherwise, the
volume size is 16 for an unset (0) input size and the input size otherwise; no
emitted mapping has an empty type or a zero size, and both builders yield the
same (device name, size, type) sequence. -/
theorem MakeBlockDevices_spec (blocks : List BlockDevice) :
    MakeBlockDevices blocks
      = blocks.map (fun block =>
          { DeviceName := block.DeviceName
            Ebs := { VolumeSize := if block.VolumeSize = 0 then 16 else block.VolumeSize
                     VolumeType := if block.VolumeType = "" then "gp2" else block.VolumeType } }) ∧
    MakeLaunchTemplateBlockDeviceMappings blocks
      = blocks.map (fun block =>
          { DeviceName := block.DeviceName
            Ebs := { VolumeSize := if block.VolumeSize = 0 then 16 else block.VolumeSize
                     VolumeType := if block.VolumeType = "" then "gp2" else block.VolumeType } }) ∧
    (∀ m ∈ MakeBlockDevices blocks, m.Ebs.VolumeType ≠ "" ∧ m.Ebs.VolumeSize ≠ 0) ∧
    (∀ m ∈ MakeLaunchTemplateBlockDeviceMappings blocks,
      m.Ebs.VolumeType ≠ "" ∧ m.Ebs.VolumeSize ≠ 0) ∧
    (MakeBlockDevices blocks).map (fun m => (m.DeviceName, m.Ebs.VolumeSize, m.Ebs.VolumeType))
      = (MakeLaunchTemplateBlockDeviceMappings blocks).map
          (fun m => (m.DeviceName, m.Ebs.VolumeSize, m.Ebs.VolumeType)) := by
  have h1 := blockDeviceLoop_eq blocks []
  have h2 := launchTemplateBlockDeviceLoop_eq blocks []
  simp only [List.nil_append] at h1 h2
  refine ⟨by simpa [MakeBlockDevices, defaultedVolumeSize, defaultedVolumeType] using h1,
    by simpa [MakeLaunchTemplateBlockDeviceMappings, defaultedVolumeSize, defaultedVolumeType]
      using h2, ?_, ?_, ?_⟩
  · intro m hm
    rw [MakeBlockDevices, h1, List.mem_map] at hm
    obtain ⟨block, -, rfl⟩ := hm
    exact ⟨defaultedVolumeType_ne block, defaultedVolumeSize_ne block⟩
  · intro m hm
    rw [MakeLaunchTemplateBlockDeviceMappings, h2, List.mem_map] at hm
    obtain ⟨block, -, rfl⟩ := hm
    exact ⟨defaultedVolumeType_ne block, defaultedVolumeSize_ne block⟩
  · rw [MakeBlockDevices, MakeLaunchTemplateBlockDeviceMappings, h1, h2]
    simp [List.map_map, Function.comp_def]

/-! ## VPC resolution -/

theorem vpcPatternMatchesIn_of_here (t : List Char) (ht : vpcPatternMatchesHere t = true) :
    vpcPatternMatchesIn t = true := by
  cases t with
  | nil => simpa [vpcPatternMatchesIn] using ht
  | cons c cs => simp [vpcPatternMatchesIn, ht]

/-- An identifier of the canonical shape is returned unchanged, with no request. -/
theorem GetVPCId_canonical (e : EC2Client) (h : History) (vpc : String)
    (hshape : isCanonicalVpcId vpc = true) : GetVPCId e h vpc = (.ok vpc, h) := by
  simp only [isCanonicalVpcId, Bool.and_eq_true, beq_iff_eq] at hshape
  obtain ⟨⟨hpre, hlen⟩, hhex⟩ := hshape
  have hhere : vpcPatternMatchesHere vpc.data = true := by
    simp only [vpcPatternMatchesHere, Bool.and_eq_true, decide_eq_true_eq]
    refine ⟨⟨hpre, by simp [hlen]⟩, ?_⟩
    rw [List.all_eq_true] at hhex ⊢
    intro c hc
    exact hhex c (List.mem_of_mem_take hc)
  simp [GetVPCId, MatchString_vpcPattern, vpcPatternMatchesIn_of_here _ hhere]

/-- C5, the code at the failing input. The identifier
"vpc-0123456789abcdef0-staging" does not have the canonical VPC-id shape, and
`GetVPCId` returns it unchanged without any request, whatever the remote. -/
theorem GetVPCId_unanchored (e : EC2Client) (h : History) :
    isCanonicalVpcId "vpc-0123456789abcdef0-staging" = false ∧
    GetVPCId e h "vpc-0123456789abcdef0-staging" = (.ok "vpc-0123456789abcdef0-staging", h) :=
  ⟨rfl, rfl⟩

/-- The lookup branch of `GetVPCId`, taken by the identifiers in which the
pattern test of the code finds no match: exactly one `DescribeVpcs` request,
filtered on tag:Name = identifier; the `VpcId` of the result when the request
yields exactly one VPC; the end of the process when the request fails or yields
zero or more than one VPC. -/
theorem GetVPCId_lookup (e : EC2Client) (h : History) (vpc : String)
    (hshape : MatchString_vpcPattern vpc = false) :
    (GetVPCId e h vpc).2 = h ++ [.DescribeVpcs [{ Name := "tag:Name", Values := [vpc] }]] ∧
    (∀ v : Vpc, e.Client.DescribeVpcs h [{ Name := "tag:Name", Values := [vpc] }] = .ok [v] →
      (GetVPCId e h vpc).1 = .ok v.VpcId) ∧
    (∀ err : Error, e.Client.DescribeVpcs h [{ Name := "tag:Name", Values := [vpc] }] = .error err →
      (GetVPCId e h vpc).1 = .error .exit1) ∧
    (∀ Vpcs : List Vpc,
      e.Client.DescribeVpcs h [{ Name := "tag:Name", Values := [vpc] }] = .ok Vpcs →
      Vpcs.length ≠ 1 → (GetVPCId e h vpc).1 = .error .exit1) := by
  refine ⟨?_, ?_, ?_, ?_⟩
  · unfold GetVPCId
    rw [if_neg (by simp [hshape])]
    cases e.Client.DescribeVpcs h (vpcNameFilters vpc) <;> rfl
  · intro v hv
    simp [GetVPCId, hshape, vpcNameFilters, hv, vpcIdOfResult]
  · intro err herr
    simp [GetVPCId, hshape, vpcNameFilters, herr]
  · intro Vpcs hv hlen
    match Vpcs, hlen with
    | [], _ => simp [GetVPCId, hshape, vpcNameFilters, hv, vpcIdOfResult, error_logging]
    | [_], hlen => simp at hlen
    | _ :: _ :: _, _ => simp [GetVPCId, hshape, vpcNameFilters, hv, vpcIdOfResult, error_logging]

/-- The name `main` resolves to its one VPC after one request; the names
`absent` (no VPC), `shared` (two VPCs) and `down` (failed request) end the
process. -/
theorem GetVPCId_lookup_witness :
    MatchString_vpcPattern "main" = false ∧
    (GetVPCId sampleNetwork [] "main").2
      = [] ++ [.DescribeVpcs [{ Name := "tag:Name", Values := ["main"] }]] ∧
    (GetVPCId sampleNetwork [] "main").1 = .ok "vpc-0123456789abcdef0" ∧
    (GetVPCId sampleNetwork [] "down").1 = .error .exit1 ∧
    (GetVPCId sampleNetwork [] "absent").1 = .error .exit1 ∧
    (GetVPCId sampleNetwork [] "shared").1 = .error .exit1 :=
  ⟨rfl, (GetVPCId_lookup sampleNetwork [] "main" rfl).1,
    (GetVPCId_lookup sampleNetwork [] "main" rfl).2.1 { VpcId := "vpc-0123456789abcdef0" } rfl,
    (GetVPCId_lookup sampleNetwork [] "down" rfl).2.2.1 "RequestLimitExceeded" rfl,
    (GetVPCId_lookup sampleNetwork [] "absent" rfl).2.2.2 [] rfl (by decide),
    (GetVPCId_lookup sampleNetwork [] "shared" rfl).2.2.2
      [{ VpcId := "vpc-0000000000000000a" }, { VpcId := "vpc-0000000000000000b" }] rfl
      (by decide)⟩

/-- C6, the code at the failing input. The identifier
"vpc-0123456789abcdef0-staging" is not of the VPC-id shape, and the remote has
exactly one VPC of that name, "vpc-0fedcba9876543210".  `GetVPCId` issues no
`DescribeVpcs` request and returns the identifier itself, not the `VpcId` of
that VPC: the unanchored pattern test finds a match inside the identifier. -/
theorem GetVPCId_lookup_skipped :
    isCanonicalVpcId "vpc-0123456789abcdef0-staging" = false ∧
    sampleStagingVpc.Client.DescribeVpcs []
        [{ Name := "tag:Name", Values := ["vpc-0123456789abcdef0-staging"] }]
      = .ok [{ VpcId := "vpc-0fedcba9876543210" }] ∧
    GetVPCId sampleStagingVpc [] "vpc-0123456789abcdef0-staging"
      = (.ok "vpc-0123456789abcdef0-staging", []) ∧
    (GetVPCId sampleStagingVpc [] "vpc-0123456789abcdef0-staging").1
      ≠ .ok "vpc-0fedcba9876543210" ∧
    Call.DescribeVpcs [{ Name := "tag:Name", Values := ["vpc-0123456789abcdef0-staging"] }]
      ∉ (GetVPCId sampleStagingVpc [] "vpc-0123456789abcdef0-staging").2 := by
  refine ⟨rfl, rfl, rfl, ?_, ?_⟩
  · have hrun : (GetVPCId sampleStagingVpc [] "vpc-0123456789abcdef0-staging").1
        = .ok "vpc-0123456789abcdef0-staging" := rfl
    rw [hrun]
    intro heq
    have hstr : "vpc-0123456789abcdef0-staging" = "vpc-0fedcba9876543210" := Except.ok.inj heq
    exact absurd hstr (by decide)
  · have hrun : (GetVPCId sampleStagingVpc [] "vpc-0123456789abcdef0-staging").2 = [] := rfl
    rw [hrun]
    exact List.not_mem_nil _

/-! ## Security-group resolution -/

theorem securityGroupLookups_cons_pass (vpcId sg : String) (rest : List String)
    (hsg : HasPrefix sg "sg-" = true) :
    securityGroupLookups vpcId (sg :: rest) = securityGroupLookups vpcId rest := by
  simp [securityGroupLookups, List.filter_cons, hsg]

theorem securityGroupLookups_cons_lookup (vpcId sg : String) (rest : List String)
    (hsg : HasPrefix sg "sg-" = false) :
    securityGroupLookups vpcId (sg :: rest)
      = Call.DescribeSecurityGroups (securityGroupFilters sg vpcId)
          :: securityGroupLookups vpcId rest := by
  simp [securityGroupLookups, securityGroupFilters, List.filter_cons, hsg]

/-- A successful run of the loop: the requests issued and the entries appended. -/
theorem securityGroupLoop_ok (e : EC2Client) (vpcId : String) (sgs : List String) :
    ∀ (h : History) (retList ret : List String) (h1 : History),
      securityGroupLoop e vpcId h sgs retList = (.ok ret, h1) →
      h1 = h ++ securityGroupLookups vpcId sgs ∧
      ∃ ids : List String, ret = retList ++ ids ∧ ids.length = sgs.length ∧
        ∀ (i : Nat) (sg : String), sgs[i]? = some sg →
          (HasPrefix sg "sg-" = true → ids[i]? = some sg) ∧
          (HasPrefix sg "sg-" = false →
            ∃ g : SecurityGroup,
              e.Client.DescribeSecurityGroups (h ++ securityGroupLookups vpcId (sgs.take i))
                (securityGroupFilters sg vpcId) = .ok [g] ∧
              ids[i]? = some g.GroupId) := by
  induction sgs with
  | nil =>
    intro h retList ret h1 hrun
    simp only [securityGroupLoop, Prod.mk.injEq, Except.ok.injEq] at hrun
    obtain ⟨rfl, rfl⟩ := hrun
    exact ⟨by simp [securityGroupLookups], [], by simp, rfl, by simp⟩
  | cons s rest ih =>
    intro h retList ret h1 hrun
    by_cases hs : HasPrefix s "sg-" = true
    · rw [securityGroupLoop, if_pos hs] at hrun
      obtain ⟨hh, ids, hret, hlen, hidx⟩ := ih h (retList ++ [s]) ret h1 hrun
      refine ⟨by rw [securityGroupLookups_cons_pass _ _ _ hs]; exact hh, s :: ids,
        by simp [hret], by simp [hlen], ?_⟩
      intro i sg hi
      cases i with
      | zero =>
        simp only [List.getElem?_cons_zero, Option.some.injEq] at hi
        subst hi
        exact ⟨fun _ => by simp, fun hf => by rw [hs] at hf; cases hf⟩
      | succ k =>
        simp only [List.getElem?_cons_succ] at hi
        simpa [List.take_succ_cons, securityGroupLookups_cons_pass _ _ _ hs] using hidx k sg hi
    · have hs' : HasPrefix s "sg-" = false := by simpa using hs
      rw [securityGroupLoop, if_neg hs] at hrun
      cases hq : e.Client.DescribeSecurityGroups h (securityGroupFilters s vpcId) with
      | error err => simp [hq] at hrun
      | ok groups =>
        match groups, hq with
        | [], hq => simp [hq, error_logging] at hrun
        | _ :: _ :: _, hq => simp [hq, error_logging] at hrun
        | [g], hq =>
          simp only [hq, List.length_singleton, ne_eq, not_true_eq_false, if_false,
            List.getElem?_cons_zero] at hrun
          obtain ⟨hh, ids, hret, hlen, hidx⟩ := ih _ (retList ++ [g.GroupId]) ret h1 hrun
          refine ⟨by rw [securityGroupLookups_cons_lookup _ _ _ hs']; simpa using hh,
            g.GroupId :: ids, by simp [hret], by simp [hlen], ?_⟩
          intro i sg hi
          cases i with
          | zero =>
            simp only [List.getElem?_cons_zero, Option.some.injEq] at hi
            subst hi
            refine ⟨fun ht => (by rw [hs'] at ht; cases ht), fun _ => ⟨g, ?_, by simp⟩⟩
            simpa [securityGroupLookups] using hq
          | succ k =>
            simp only [List.getElem?_cons_succ] at hi
            simpa [List.take_succ_cons, securityGroupLookups_cons_lookup _ _ _ hs'] using
              hidx k sg hi

/-- The loop ends the process at the first name whose lookup yields zero or more
than one group; the failing request is the last one issued. -/
theorem securityGroupLoop_fail (e : EC2Client) (vpcId : String) (sgs : List String) :
    ∀ (h : History) (retList : List String) (i : Nat) (sg : String) (groups : List SecurityGroup),
      sgs[i]? = some sg →
      (∀ (j : Nat) (sgj : String), j < i → sgs[j]? = some sgj →
        HasPrefix sgj "sg-" = true ∨
        ∃ g : SecurityGroup,
          e.Client.DescribeSecurityGroups (h ++ securityGroupLookups vpcId (sgs.take j))
            (securityGroupFilters sgj vpcId) = .ok [g]) →
      HasPrefix sg "sg-" = false →
      e.Client.DescribeSecurityGroups (h ++ securityGroupLookups vpcId (sgs.take i))
        (securityGroupFilters sg vpcId) = .ok groups →
      groups.length ≠ 1 →
      securityGroupLoop e vpcId h sgs retList
        = (.error .exit1, h ++ securityGroupLookups vpcId (sgs.take i)
            ++ [.DescribeSecurityGroups (securityGroupFilters sg vpcId)]) := by
  induction sgs with
  | nil => intro h retList i sg groups hi; simp at hi
  | cons s rest ih =>
    intro h retList i sg groups hi hbefore hsg hq hlen
    cases i with
    | zero =>
      simp only [List.getElem?_cons_zero, Option.some.injEq] at hi
      subst hi
      have hq' : e.Client.DescribeSecurityGroups h (securityGroupFilters s vpcId) = .ok groups := by
        simpa [securityGroupLookups] using hq
      have hs : ¬ HasPrefix s "sg-" = true := by simp [hsg]
      rw [securityGroupLoop, if_neg hs]
      simp [hq', hlen, error_logging, securityGroupLookups]
    | succ k =>
      simp only [List.getElem?_cons_succ] at hi
      by_cases hs : HasPrefix s "sg-" = true
      · rw [securityGroupLoop, if_pos hs]
        have hrun := ih h (retList ++ [s]) k sg groups hi
          (fun j sgj hj hsgj => by
            simpa [List.take_succ_cons, securityGroupLookups_cons_pass _ _ _ hs] using
              hbefore (j + 1) sgj (by omega) (by simpa using hsgj))
          hsg
          (by simpa [List.take_succ_cons, securityGroupLookups_cons_pass _ _ _ hs] using hq)
          hlen
        simpa [List.take_succ_cons, securityGroupLookups_cons_pass _ _ _ hs] using hrun
      · have hs' : HasPrefix s "sg-" = false := by simpa using hs
        obtain ⟨g, hg⟩ : ∃ g : SecurityGroup,
            e.Client.DescribeSecurityGroups h (securityGroupFilters s vpcId) = .ok [g] := by
          rcases hbefore 0 s (by omega) (by simp) with h0 | ⟨g, hg⟩
          · exact absurd h0 hs
          · exact ⟨g, by simpa [securityGroupLookups] using hg⟩
        rw [securityGroupLoop, if_neg hs]
        simp only [hg, List.length_singleton, ne_eq, not_true_eq_false, if_false,
          List.getElem?_cons_zero]
        have hrun := ih (h ++ [.DescribeSecurityGroups (securityGroupFilters s vpcId)])
          (retList ++ [g.GroupId]) k sg groups hi
          (fun j sgj hj hsgj => by
            simpa [List.take_succ_cons, securityGroupLookups_cons_lookup _ _ _ hs'] using
              hbefore (j + 1) sgj (by omega) (by simpa using hsgj))
          hsg
          (by simpa [List.take_succ_cons, securityGroupLookups_cons_lookup _ _ _ hs'] using hq)
          hlen
        simpa [List.take_succ_cons, securityGroupLookups_cons_lookup _ _ _ hs'] using hrun

/-- The loop returns when every name either starts with "sg-" or has a lookup
that yields exactly one group. -/
theorem securityGroupLoop_returns (e : EC2Client) (vpcId : String) (sgs : List String) :
    ∀ (h : History) (retList : List String),
      (∀ (i : Nat) (sg : String), sgs[i]? = some sg →
        HasPrefix sg "sg-" = true ∨
        ∃ g : SecurityGroup,
          e.Client.DescribeSecurityGroups (h ++ securityGroupLookups vpcId (sgs.take i))
            (securityGroupFilters sg vpcId) = .ok [g]) →
      ∃ ret : List String,
        securityGroupLoop e vpcId h sgs retList = (.ok ret, h ++ securityGroupLookups vpcId sgs) := by
  induction sgs with
  | nil => intro h retList _; exact ⟨retList, by simp [securityGroupLoop, securityGroupLookups]⟩
  | cons s rest ih =>
    intro h retList hall
    by_cases hs : HasPrefix s "sg-" = true
    · rw [securityGroupLoop, if_pos hs, securityGroupLookups_cons_pass _ _ _ hs]
      exact ih h (retList ++ [s]) (fun i sg hi => by
        simpa [List.take_succ_cons, securityGroupLookups_cons_pass _ _ _ hs] using
          hall (i + 1) sg (by simpa using hi))
    · have hs' : HasPrefix s "sg-" = false := by simpa using hs
      obtain ⟨g, hg⟩ : ∃ g : SecurityGroup,
          e.Client.DescribeSecurityGroups h (securityGroupFilters s vpcId) = .ok [g] := by
        rcases hall 0 s (by simp) with h0 | ⟨g, hg⟩
        · exact absurd h0 hs
        · exact ⟨g, by simpa [securityGroupLookups] using hg⟩
      rw [securityGroupLoop, if_neg hs, securityGroupLookups_cons_lookup _ _ _ hs']
      simp only [hg, List.length_singleton, ne_eq, not_true_eq_false, if_false,
        List.getElem?_cons_zero]
      obtain ⟨ret, hret⟩ := ih (h ++ [.DescribeSecurityGroups (securityGroupFilters s vpcId)])
        (retList ++ [g.GroupId]) (fun i sg hi => by
          simpa [List.take_succ_cons, securityGroupLookups_cons_lookup _ _ _ hs'] using
            hall (i + 1) sg (by simpa using hi))
      exact ⟨ret, by simpa using hret⟩

/-- C7. `GetSecurityGroupList` ends the process, before any request, when the
list of names is empty.  For a non-empty list and a resolved VPC: when it
succeeds, the result has the length and the order of the input, an entry that
starts with "sg-" is passed through unchanged and no request is issued for it,
and every other entry is replaced by the `GroupId` of the single group that its
(group-name, vpc-id) request returned; and it ends the process at the first
name whose request yields zero or more than one group, that request being the
last one issued. -/
theorem GetSecurityGroupList_spec (e : EC2Client) (h : History) (vpc : String)
    (sgList : List String) :
    (sgList = [] → GetSecurityGroupList e h vpc sgList = (.error .exit1, h)) ∧
    (∀ (vpcId : String) (h0 : History), sgList ≠ [] → GetVPCId e h vpc = (.ok vpcId, h0) →
      (∀ (ret : List String) (h1 : History),
        GetSecurityGroupList e h vpc sgList = (.ok ret, h1) →
        ret.length = sgList.length ∧
        h1 = h0 ++ securityGroupLookups vpcId sgList ∧
        ∀ (i : Nat) (sg : String), sgList[i]? = some sg →
          (HasPrefix sg "sg-" = true → ret[i]? = some sg) ∧
          (HasPrefix sg "sg-" = false →
            ∃ g : SecurityGroup,
              e.Client.DescribeSecurityGroups (h0 ++ securityGroupLookups vpcId (sgList.take i))
                [{ Name := "group-name", Values := [sg] },
                 { Name := "vpc-id", Values := [vpcId] }] = .ok [g] ∧
              ret[i]? = some g.GroupId)) ∧
      (∀ (i : Nat) (sg : String) (groups : List SecurityGroup),
        sgList[i]? = some sg →
        (∀ (j : Nat) (sgj : String), j < i → sgList[j]? = some sgj →
          HasPrefix sgj "sg-" = true ∨
          ∃ g : SecurityGroup,
            e.Client.DescribeSecurityGroups (h0 ++ securityGroupLookups vpcId (sgList.take j))
              [{ Name := "group-name", Values := [sgj] },
               { Name := "vpc-id", Values := [vpcId] }] = .ok [g]) →
        HasPrefix sg "sg-" = false →
        e.Client.DescribeSecurityGroups (h0 ++ securityGroupLookups vpcId (sgList.take i))
          [{ Name := "group-name", Values := [sg] },
           { Name := "vpc-id", Values := [vpcId] }] = .ok groups →
        groups.length ≠ 1 →
        GetSecurityGroupList e h vpc sgList
          = (.error .exit1, h0 ++ securityGroupLookups vpcId (sgList.take i)
              ++ [.DescribeSecurityGroups [{ Name := "group-name", Values := [sg] },
                                           { Name := "vpc-id", Values := [vpcId] }]])) ∧
      ((∀ (i : Nat) (sg : String), sgList[i]? = some sg →
          HasPrefix sg "sg-" = true ∨
          ∃ g : SecurityGroup,
            e.Client.DescribeSecurityGroups (h0 ++ securityGroupLookups vpcId (sgList.take i))
              [{ Name := "group-name", Values := [sg] },
               { Name := "vpc-id", Values := [vpcId] }] = .ok [g]) →
        ∃ ret : List String,
          GetSecurityGroupList e h vpc sgList
            = (.ok ret, h0 ++ securityGroupLookups vpcId sgList))) := by
  refine ⟨?_, ?_⟩
  · rintro rfl
    simp [GetSecurityGroupList, error_logging]
  · intro vpcId h0 hne hvpc
    have hlen : ¬ sgList.length = 0 := by
      intro h0'
      exact hne (List.length_eq_zero.mp h0')
    have hrun : GetSecurityGroupList e h vpc sgList = securityGroupLoop e vpcId h0 sgList [] := by
      simp [GetSecurityGroupList, hlen, hvpc]
    refine ⟨?_, ?_, ?_⟩
    · intro ret h1 hok
      rw [hrun] at hok
      obtain ⟨hh, ids, hret, hidlen, hidx⟩ := securityGroupLoop_ok e vpcId sgList h0 [] ret h1 hok
      simp only [List.nil_append] at hret
      subst hret
      exact ⟨hidlen, hh, hidx⟩
    · intro i sg groups hi hbefore hsg hq hgl
      rw [hrun]
      exact securityGroupLoop_fail e vpcId sgList h0 [] i sg groups hi hbefore hsg hq hgl
    · intro hall
      rw [hrun]
      exact securityGroupLoop_returns e vpcId sgList h0 [] hall

/-- In the VPC named `main`: the empty list ends the process; the list
`["sg-0123", "web"]` resolves with one request for `web` and none for `sg-0123`;
in `["web", "db", "web"]` the name `db` has no group, so the process ends after its
request and the third name is never looked up. -/
theorem GetSecurityGroupList_spec_witness :
    GetSecurityGroupList sampleNetwork [] "main" [] = (.error .exit1, []) ∧
    GetVPCId sampleNetwork [] "main"
      = (.ok "vpc-0123456789abcdef0", [.DescribeVpcs [{ Name := "tag:Name", Values := ["main"] }]]) ∧
    GetSecurityGroupList sampleNetwork [] "main" ["sg-0123", "web"]
      = (.ok ["sg-0123", "sg-0000000000000web"],
          [.DescribeVpcs [{ Name := "tag:Name", Values := ["main"] }],
           .DescribeSecurityGroups [{ Name := "group-name", Values := ["web"] },
                                    { Name := "vpc-id", Values := ["vpc-0123456789abcdef0"] }]]) ∧
    (["sg-0123", "sg-0000000000000web"].length = ["sg-0123", "web"].length ∧
      [Call.DescribeVpcs [{ Name := "tag:Name", Values := ["main"] }],
        Call.DescribeSecurityGroups [{ Name := "group-name", Values := ["web"] },
                                     { Name := "vpc-id", Values := ["vpc-0123456789abcdef0"] }]]
        = [Call.DescribeVpcs [{ Name := "tag:Name", Values := ["main"] }]]
            ++ securityGroupLookups "vpc-0123456789abcdef0" ["sg-0123", "web"]) ∧
    GetSecurityGroupList sampleNetwork [] "main" ["web", "db", "web"]
      = (.error .exit1,
          [Call.DescribeVpcs [{ Name := "tag:Name", Values := ["main"] }]]
            ++ securityGroupLookups "vpc-0123456789abcdef0" (["web", "db", "web"].take 1)
            ++ [.DescribeSecurityGroups [{ Name := "group-name", Values := ["db"] },
                                         { Name := "vpc-id", Values := ["vpc-0123456789abcdef0"] }]]) :=
  ⟨(GetSecurityGroupList_spec sampleNetwork [] "main" []).1 rfl, rfl, rfl,
    ⟨(((GetSecurityGroupList_spec sampleNetwork [] "main" ["sg-0123", "web"]).2
        "vpc-0123456789abcdef0" _ (by decide) rfl).1 _ _ rfl).1,
      (((GetSecurityGroupList_spec sampleNetwork [] "main" ["sg-0123", "web"]).2
        "vpc-0123456789abcdef0" _ (by decide) rfl).1 _ _ rfl).2.1⟩,
    ((GetSecurityGroupList_spec sampleNetwork [] "main" ["web", "db", "web"]).2
        "vpc-0123456789abcdef0" _ (by decide) rfl).2.1 1 "db" [] rfl
      (fun j sgj hj hsgj => by
        have hj0 : j = 0 := by omega
        subst hj0
        simp only [List.getElem?_cons_zero, Option.some.injEq] at hsgj
        subst hsgj
        exact Or.inr ⟨{ GroupId := "sg-0000000000000web", GroupName := "web" }, rfl⟩)
      rfl rfl (by decide)⟩

/-! ## Availability zones and subnets -/

theorem IsStringInArray_iff (s : String) (arr : List String) :
    IsStringInArray s arr = true ↔ s ∈ arr := by
  unfold IsStringInArray
  rw [List.any_eq_true]
  constructor
  · rintro ⟨a, ha, hab⟩
    have : a = s := by simpa using hab
    exact this ▸ ha
  · intro hs
    exact ⟨s, hs, by simp⟩

/-- The invariant of the loop of `GetAvailabilityZones`: `done` lists the zones
of the subnets already visited. -/
theorem availabilityZoneLoop_inv (azs : List String) (rest : List Subnet) :
    ∀ (done ret : List String),
      ret.Nodup → (∀ z, z ∈ ret ↔ z ∈ done ∧ z ∈ azs) →
      List.Pairwise (fun a b => done.indexOf a < done.indexOf b) ret →
      (availabilityZoneLoop azs rest ret).Nodup ∧
      (∀ z, z ∈ availabilityZoneLoop azs rest ret ↔
        z ∈ done ++ rest.map (fun subnet => subnet.AvailabilityZone) ∧ z ∈ azs) ∧
      List.Pairwise
        (fun a b => (done ++ rest.map (fun subnet => subnet.AvailabilityZone)).indexOf a
          < (done ++ rest.map (fun subnet => subnet.AvailabilityZone)).indexOf b)
        (availabilityZoneLoop azs rest ret) := by
  induction rest with
  | nil => intro done ret hnd hmem hord; simpa [availabilityZoneLoop] using ⟨hnd, hmem, hord⟩
  | cons subnet rest ih =>
    intro done ret hnd hmem hord
    have hstep : ∀ ret' : List String,
        ret'.Nodup → (∀ z, z ∈ ret' ↔ z ∈ done ++ [subnet.AvailabilityZone] ∧ z ∈ azs) →
        List.Pairwise (fun a b => (done ++ [subnet.AvailabilityZone]).indexOf a
          < (done ++ [subnet.AvailabilityZone]).indexOf b) ret' →
        (availabilityZoneLoop azs rest ret').Nodup ∧
        (∀ z, z ∈ availabilityZoneLoop azs rest ret' ↔
          z ∈ done ++ (subnet :: rest).map (fun subnet => subnet.AvailabilityZone) ∧ z ∈ azs) ∧
        List.Pairwise
          (fun a b => (done ++ (subnet :: rest).map (fun subnet => subnet.AvailabilityZone)).indexOf a
            < (done ++ (subnet :: rest).map (fun subnet => subnet.AvailabilityZone)).indexOf b)
          (availabilityZoneLoop azs rest ret') := by
      intro ret' h1 h2 h3
      have := ih (done ++ [subnet.AvailabilityZone]) ret' h1 h2 h3
      simpa [List.append_assoc] using this
    have hkeep : List.Pairwise (fun a b => (done ++ [subnet.AvailabilityZone]).indexOf a
        < (done ++ [subnet.AvailabilityZone]).indexOf b) ret := by
      refine hord.imp_of_mem ?_
      intro a b ha hb hab
      rw [List.indexOf_append_of_mem ((hmem a).mp ha).1,
        List.indexOf_append_of_mem ((hmem b).mp hb).1]
      exact hab
    by_cases hskip : (IsStringInArray subnet.AvailabilityZone ret
        || !IsStringInArray subnet.AvailabilityZone azs) = true
    · rw [availabilityZoneLoop, if_pos hskip]
      refine hstep ret hnd ?_ hkeep
      intro z
      rw [hmem z]
      constructor
      · rintro ⟨hz, hza⟩
        exact ⟨List.mem_append_left _ hz, hza⟩
      · rintro ⟨hz, hza⟩
        rcases List.mem_append.mp hz with hz | hz
        · exact ⟨hz, hza⟩
        · have hzeq : z = subnet.AvailabilityZone := by simpa using hz
          subst hzeq
          simp only [Bool.or_eq_true, Bool.not_eq_true', IsStringInArray_iff] at hskip
          rcases hskip with hin | hout
          · exact (hmem _).mp hin
          · have : IsStringInArray subnet.AvailabilityZone azs = true :=
              (IsStringInArray_iff _ _).mpr hza
            rw [hout] at this
            cases this
    · rw [availabilityZoneLoop, if_neg hskip]
      simp only [Bool.or_eq_true, Bool.not_eq_true', not_or, Bool.not_eq_false,
        IsStringInArray_iff] at hskip
      obtain ⟨hnew, hreq⟩ := hskip
      have hfresh : subnet.AvailabilityZone ∉ done := fun hd => hnew ((hmem _).mpr ⟨hd, hreq⟩)
      refine hstep (ret ++ [subnet.AvailabilityZone]) ?_ ?_ ?_
      · rw [List.nodup_append]
        refine ⟨hnd, List.nodup_singleton _, ?_⟩
        intro a ha hb
        have : a = subnet.AvailabilityZone := by simpa using hb
        exact hnew (this ▸ ha)
      · intro z
        simp only [List.mem_append, List.mem_singleton, hmem z]
        constructor
        · rintro (⟨hz, hza⟩ | rfl)
          · exact ⟨Or.inl hz, hza⟩
          · exact ⟨Or.inr rfl, hreq⟩
        · rintro ⟨hz | rfl, hza⟩
          · exact Or.inl ⟨hz, hza⟩
          · exact Or.inr rfl
      · rw [List.pairwise_append]
        refine ⟨hkeep, List.pairwise_singleton _ _, ?_⟩
        intro a ha b hb
        have hb' : b = subnet.AvailabilityZone := by simpa using hb
        subst hb'
        have hadone : a ∈ done := ((hmem a).mp ha).1
        rw [List.indexOf_append_of_mem hadone, List.indexOf_append_of_not_mem hfresh]
        have := List.indexOf_lt_length.mpr hadone
        omega

/-- C8. Given the resolved VPC and its subnet listing, `GetAvailabilityZones`
returns a duplicate-free list that contains a zone exactly when the zone is the
availability zone of some listed subnet and a member of the requested list,
ordered by the zone's first occurrence in the subnet listing. -/
theorem GetAvailabilityZones_spec (e : EC2Client) (h : History) (vpc : String)
    (azs : List String) (vpcId : String) (h0 : History) (Subnets : List Subnet)
    (hvpc : GetVPCId e h vpc = (.ok vpcId, h0))
    (hsubnets : e.Client.DescribeSubnets h0 [{ Name := "vpc-id", Values := [vpcId] }]
      = .ok Subnets) :
    ∃ zones : List String,
      (GetAvailabilityZones e h vpc azs).1 = .ok zones ∧
      zones.Nodup ∧
      (∀ z, z ∈ zones ↔ (∃ subnet ∈ Subnets, subnet.AvailabilityZone = z) ∧ z ∈ azs) ∧
      List.Pairwise
        (fun a b => (Subnets.map (fun subnet => subnet.AvailabilityZone)).indexOf a
          < (Subnets.map (fun subnet => subnet.AvailabilityZone)).indexOf b) zones := by
  obtain ⟨hnd, hmem, hord⟩ := availabilityZoneLoop_inv azs Subnets [] [] List.nodup_nil
    (by simp) List.Pairwise.nil
  refine ⟨availabilityZoneLoop azs Subnets [], ?_, hnd, ?_, by simpa using hord⟩
  · have hsubnets' : e.Client.DescribeSubnets h0 (subnetFilters vpcId) = .ok Subnets := hsubnets
    simp [GetAvailabilityZones, hvpc, hsubnets']
  · intro z
    rw [hmem z]
    simp

/-- The zones `zone-c` and `zone-a` are requested in that order; the listing has
`zone-a` first, so the result is `zone-a`, `zone-c`, each once. -/
theorem GetAvailabilityZones_spec_witness :
    GetVPCId sampleNetwork [] "vpc-0123456789abcdef0" = (.ok "vpc-0123456789abcdef0", []) ∧
    (GetAvailabilityZones sampleNetwork [] "vpc-0123456789abcdef0" ["zone-c", "zone-a"]).1
      = .ok ["zone-a", "zone-c"] ∧
    ∃ zones : List String,
      (GetAvailabilityZones sampleNetwork [] "vpc-0123456789abcdef0" ["zone-c", "zone-a"]).1
        = .ok zones ∧
      zones.Nodup ∧
      (∀ z, z ∈ zones ↔
        (∃ subnet ∈ ([{ SubnetId := "subnet-a1", AvailabilityZone := "zone-a"
                        Tags := [{ Key := "Name", Value := "private-a" }] },
                      { SubnetId := "subnet-c1", AvailabilityZone := "zone-c"
                        Tags := [{ Key := "Name", Value := "public-c" },
                                 { Key := "tier", Value := "public" },
                                 { Key := "Name", Value := "public-c-alt" }] },
                      { SubnetId := "subnet-a2", AvailabilityZone := "zone-a"
                        Tags := [{ Key := "Name", Value := "public-a" }] },
                      { SubnetId := "subnet-b1", AvailabilityZone := "zone-b"
                        Tags := [{ Key := "Name", Value := "public-b" }] }] : List Subnet),
          subnet.AvailabilityZone = z) ∧ z ∈ ["zone-c", "zone-a"]) ∧
      List.Pairwise
        (fun a b => (["zone-a", "zone-c", "zone-a", "zone-b"] : List String).indexOf a
          < (["zone-a", "zone-c", "zone-a", "zone-b"] : List String).indexOf b) zones :=
  ⟨rfl, rfl,
    GetAvailabilityZones_spec sampleNetwork [] "vpc-0123456789abcdef0" ["zone-c", "zone-a"]
      "vpc-0123456789abcdef0" [] _ rfl rfl⟩

theorem subnetTagLoop_eq (subnetType SubnetId : String) (tags : List Ec2Tag) :
    ∀ ret : List String,
      subnetTagLoop subnetType SubnetId tags ret
        = ret ++ List.replicate
            (tags.countP (fun tag => decide (tag.Key = "Name") && HasPrefix tag.Value subnetType))
            SubnetId := by
  induction tags with
  | nil => intro ret; simp [subnetTagLoop]
  | cons tag rest ih =>
    intro ret
    by_cases hp : (tag.Key == "Name" && HasPrefix tag.Value subnetType) = true
    · have hp' : (decide (tag.Key = "Name") && HasPrefix tag.Value subnetType) = true := by
        simpa using hp
      rw [subnetTagLoop, if_pos hp, ih, List.countP_cons, if_pos hp', List.replicate_succ]
      simp
    · have hp' : ¬ (decide (tag.Key = "Name") && HasPrefix tag.Value subnetType) = true := by
        simpa using hp
      rw [subnetTagLoop, if_neg hp, ih, List.countP_cons, if_neg hp', Nat.add_zero]

theorem subnetLoop_eq (subnetType : String) (azs : List String) (subnets : List Subnet) :
    ∀ ret : List String,
      subnetLoop subnetType azs subnets ret
        = ret ++ subnets.flatMap (fun subnet =>
            if subnet.AvailabilityZone ∈ azs then
              List.replicate
                (subnet.Tags.countP
                  (fun tag => decide (tag.Key = "Name") && HasPrefix tag.Value subnetType))
                subnet.SubnetId
            else []) := by
  induction subnets with
  | nil => intro ret; simp [subnetLoop]
  | cons subnet rest ih =>
    intro ret
    by_cases hz : subnet.AvailabilityZone ∈ azs
    · have hin : IsStringInArray subnet.AvailabilityZone azs = true :=
        (IsStringInArray_iff _ _).mpr hz
      rw [subnetLoop, hin]
      simp [ih, subnetTagLoop_eq, hz]
    · have hin : IsStringInArray subnet.AvailabilityZone azs = false := by
        cases hv : IsStringInArray subnet.AvailabilityZone azs with
        | false => rfl
        | true => exact absurd ((IsStringInArray_iff _ _).mp hv) hz
      rw [subnetLoop, hin]
      simp [ih, hz]

/-- C9. Given the resolved VPC and its subnet listing, `GetSubnets` returns, in
listing order, the identifier of each subnet whose availability zone is in the
zone list, once for every tag of that subnet whose key is "Name" and whose value
starts with "public" (`use_public_subnets` true) or "private" (false): a subnet
with k such tags appears k times, a subnet outside the zones or with no such tag
does not appear. -/
theorem GetSubnets_spec (e : EC2Client) (h : History) (vpc : String)
    (use_public_subnets : Bool) (azs : List String) (vpcId : String) (h0 : History)
    (Subnets : List Subnet)
    (hvpc : GetVPCId e h vpc = (.ok vpcId, h0))
    (hsubnets : e.Client.DescribeSubnets h0 [{ Name := "vpc-id", Values := [vpcId] }]
      = .ok Subnets) :
    (GetSubnets e h vpc use_public_subnets azs).1
      = .ok (Subnets.flatMap (fun subnet =>
          if subnet.AvailabilityZone ∈ azs then
            List.replicate
              (subnet.Tags.countP (fun tag =>
                decide (tag.Key = "Name") &&
                  HasPrefix tag.Value (if use_public_subnets then "public" else "private")))
              subnet.SubnetId
          else [])) := by
  have hsubnets' : e.Client.DescribeSubnets h0 (subnetFilters vpcId) = .ok Subnets := hsubnets
  simp [GetSubnets, hvpc, hsubnets', subnetLoop_eq]

/-- Public subnets in the zones `zone-c` and `zone-a`: `subnet-c1` has two
matching tags and comes twice, `subnet-a2` once; the private `subnet-a1` and
`subnet-b1` of the zone not asked for do not appear. -/
theorem GetSubnets_spec_witness :
    GetVPCId sampleNetwork [] "vpc-0123456789abcdef0" = (.ok "vpc-0123456789abcdef0", []) ∧
    (GetSubnets sampleNetwork [] "vpc-0123456789abcdef0" true ["zone-c", "zone-a"]).1
      = .ok ["subnet-c1", "subnet-c1", "subnet-a2"] ∧
    (GetSubnets sampleNetwork [] "vpc-0123456789abcdef0" true ["zone-c", "zone-a"]).1
      = .ok (([{ SubnetId := "subnet-a1", AvailabilityZone := "zone-a"
                 Tags := [{ Key := "Name", Value := "private-a" }] },
               { SubnetId := "subnet-c1", AvailabilityZone := "zone-c"
                 Tags := [{ Key := "Name", Value := "public-c" },
                          { Key := "tier", Value := "public" },
                          { Key := "Name", Value := "public-c-alt" }] },
               { SubnetId := "subnet-a2", AvailabilityZone := "zone-a"
                 Tags := [{ Key := "Name", Value := "public-a" }] },
               { SubnetId := "subnet-b1", AvailabilityZone := "zone-b"
                 Tags := [{ Key := "Name", Value := "public-b" }] }] : List Subnet).flatMap
          (fun subnet =>
            if subnet.AvailabilityZone ∈ ["zone-c", "zone-a"] then
              List.replicate
                (subnet.Tags.countP (fun tag =>
                  decide (tag.Key = "Name") &&
                    HasPrefix tag.Value (if true = true then "public" else "private")))
                subnet.SubnetId
            else [])) :=
  ⟨rfl, rfl,
    GetSubnets_spec sampleNetwork [] "vpc-0123456789abcdef0" true ["zone-c", "zone-a"]
      "vpc-0123456789abcdef0" [] _ rfl rfl⟩

/-! ## Deletion of launch specs -/

theorem deleteLaunchConfigurationsLoop_eq (client : AutoScaling) (asg_name : String)
    (lcs : List LaunchConfiguration) :
    ∀ h : History,
      deleteLaunchConfigurationsLoop client asg_name h lcs
        = deleteInOrder client.DeleteLaunchConfiguration Call.DeleteLaunchConfiguration h
            (matchingNames asg_name (lcs.map (fun lc => lc.LaunchConfigurationName))) := by
  induction lcs with
  | nil => intro h; rfl
  | cons lc rest ih =>
    intro h
    by_cases hp : HasPrefix lc.LaunchConfigurationName asg_name = true
    · rw [deleteLaunchConfigurationsLoop, if_pos hp]
      simp only [matchingNames, List.map_cons, List.filter_cons, hp, if_true, deleteInOrder,
        deleteLaunchConfiguration]
      cases client.DeleteLaunchConfiguration h lc.LaunchConfigurationName with
      | some err => rfl
      | none => simpa [matchingNames] using ih _
    · rw [deleteLaunchConfigurationsLoop, if_neg hp]
      simpa [matchingNames, List.filter_cons, hp] using ih h

theorem deleteLaunchTemplatesLoop_eq (client : EC2) (asg_name : String)
    (lts : List LaunchTemplate) :
    ∀ h : History,
      deleteLaunchTemplatesLoop client asg_name h lts
        = deleteInOrder client.DeleteLaunchTemplate Call.DeleteLaunchTemplate h
            (matchingNames asg_name (lts.map (fun lt => lt.LaunchTemplateName))) := by
  induction lts with
  | nil => intro h; rfl
  | cons lt rest ih =>
    intro h
    by_cases hp : HasPrefix lt.LaunchTemplateName asg_name = true
    · rw [deleteLaunchTemplatesLoop, if_pos hp]
      simp only [matchingNames, List.map_cons, List.filter_cons, hp, if_true, deleteInOrder,
        deleteLaunchTemplate]
      cases client.DeleteLaunchTemplate h lt.LaunchTemplateName with
      | some err => rfl
      | none => simpa [matchingNames] using ih _
    · rw [deleteLaunchTemplatesLoop, if_neg hp]
      simpa [matchingNames, List.filter_cons, hp] using ih h

theorem deleteInOrder_history (del : History → String → Option Error) (mk : String → Call)
    (names : List String) :
    ∀ h : History, ∃ k : Nat, k ≤ names.length ∧
      (deleteInOrder del mk h names).2 = h ++ (names.take k).map mk := by
  induction names with
  | nil => intro h; exact ⟨0, by simp, by simp [deleteInOrder]⟩
  | cons name rest ih =>
    intro h
    cases hd : del h name with
    | some err => exact ⟨1, by simp, by simp [deleteInOrder, hd]⟩
    | none =>
      obtain ⟨k, hk, hrun⟩ := ih (h ++ [mk name])
      exact ⟨k + 1, by simpa using hk, by simp [deleteInOrder, hd, hrun]⟩

theorem deleteInOrder_fail (del : History → String → Option Error) (mk : String → Call)
    (names : List String) :
    ∀ (h : History) (k : Nat) (name : String) (err : Error), names[k]? = some name →
      (∀ (j : Nat) (nj : String), j < k → names[j]? = some nj →
        del (h ++ (names.take j).map mk) nj = none) →
      del (h ++ (names.take k).map mk) name = some err →
      deleteInOrder del mk h names = (some err, h ++ (names.take (k + 1)).map mk) := by
  induction names with
  | nil => intro h k name err hk; simp at hk
  | cons n rest ih =>
    intro h k name err hk hbefore hfail
    cases k with
    | zero =>
      simp only [List.getElem?_cons_zero, Option.some.injEq] at hk
      subst hk
      have hfail' : del h n = some err := by simpa using hfail
      simp [deleteInOrder, hfail']
    | succ k =>
      simp only [List.getElem?_cons_succ] at hk
      have h0 : del h n = none := by simpa using hbefore 0 n (by omega) (by simp)
      have hrun := ih (h ++ [mk n]) k name err hk
        (fun j nj hj hnj => by
          simpa [List.take_succ_cons] using hbefore (j + 1) nj (by omega) (by simpa using hnj))
        (by simpa [List.take_succ_cons] using hfail)
      simp only [deleteInOrder, h0, hrun]
      simp [List.take_succ_cons]

theorem deleteInOrder_all (del : History → String → Option Error) (mk : String → Call)
    (names : List String) :
    ∀ h : History,
      (∀ (j : Nat) (nj : String), names[j]? = some nj →
        del (h ++ (names.take j).map mk) nj = none) →
      deleteInOrder del mk h names = (none, h ++ names.map mk) := by
  induction names with
  | nil => intro h _; simp [deleteInOrder]
  | cons n rest ih =>
    intro h hall
    have h0 : del h n = none := by simpa using hall 0 n (by simp)
    have hrun := ih (h ++ [mk n])
      (fun j nj hnj => by
        simpa [List.take_succ_cons] using hall (j + 1) nj (by simpa using hnj))
    simp only [deleteInOrder, h0, hrun]
    simp

theorem abortsOnFirstFailure_deleteInOrder (del : History → String → Option Error)
    (mk : String → Call) (h0 : History) (names : List String) :
    AbortsOnFirstFailure del mk h0 names
      (.ok (deleteInOrder del mk h0 names).1, (deleteInOrder del mk h0 names).2) := by
  refine ⟨deleteInOrder_history del mk names h0, ?_, ?_⟩
  · intro k name err hk hbefore hfail
    rw [deleteInOrder_fail del mk names h0 k name err hk hbefore hfail]
  · intro hall
    rw [deleteInOrder_all del mk names h0 hall]

theorem getAllLaunchConfigurations_pages (client : AutoScaling)
    (pages : List (List LaunchConfiguration)) :
    ∀ (fuel : Nat) (h : History) (lcs : List LaunchConfiguration) (tok : Option String),
      ServesLaunchConfigurationPages client h tok pages → pages.length ≤ fuel →
      ∃ calls : List Call, calls.length = pages.length ∧
        getAllLaunchConfigurations client fuel h lcs tok
          = (.ok (lcs ++ pages.flatten), h ++ calls) := by
  induction pages with
  | nil => intro fuel h lcs tok hs; exact absurd hs (by simp [ServesLaunchConfigurationPages])
  | cons page rest ih =>
    intro fuel h lcs tok hs hfuel
    cases fuel with
    | zero => simp at hfuel
    | succ fuel =>
      cases rest with
      | nil =>
        refine ⟨[.DescribeLaunchConfigurations tok], rfl, ?_⟩
        simp only [ServesLaunchConfigurationPages] at hs
        simp [getAllLaunchConfigurations, hs]
      | cons next rest =>
        obtain ⟨token, hpage, hrest⟩ := hs
        obtain ⟨calls, hlen, hrun⟩ :=
          ih fuel (h ++ [.DescribeLaunchConfigurations tok]) (lcs ++ page) (some token) hrest
            (by simpa using hfuel)
        refine ⟨.DescribeLaunchConfigurations tok :: calls, by simp [hlen], ?_⟩
        simp [getAllLaunchConfigurations, hpage, hrun]

theorem getAllLaunchTemplates_pages (client : EC2) (pages : List (List LaunchTemplate)) :
    ∀ (fuel : Nat) (h : History) (lts : List LaunchTemplate) (tok : Option String),
      ServesLaunchTemplatePages client h tok pages → pages.length ≤ fuel →
      ∃ calls : List Call, calls.length = pages.length ∧
        getAllLaunchTemplates client fuel h lts tok
          = (.ok (lts ++ pages.flatten), h ++ calls) := by
  induction pages with
  | nil => intro fuel h lts tok hs; exact absurd hs (by simp [ServesLaunchTemplatePages])
  | cons page rest ih =>
    intro fuel h lts tok hs hfuel
    cases fuel with
    | zero => simp at hfuel
    | succ fuel =>
      cases rest with
      | nil =>
        refine ⟨[.DescribeLaunchTemplates tok], rfl, ?_⟩
        simp only [ServesLaunchTemplatePages] at hs
        simp [getAllLaunchTemplates, hs]
      | cons next rest =>
        obtain ⟨token, hpage, hrest⟩ := hs
        obtain ⟨calls, hlen, hrun⟩ :=
          ih fuel (h ++ [.DescribeLaunchTemplates tok]) (lts ++ page) (some token) hrest
            (by simpa using hfuel)
        refine ⟨.DescribeLaunchTemplates tok :: calls, by simp [hlen], ?_⟩
        simp [getAllLaunchTemplates, hpage, hrun]

/-- C10. When the remote delivers the launch configurations (resp. launch
templates) as a finite chain of pages, `DeleteLaunchConfigurations` (resp.
`DeleteLaunchTemplates`) fetches them with one request per page and then issues
delete requests only for the specs of the concatenated pages whose name has the
group name as a prefix, in enumeration order; when the k-th of these deletions is
the first to fail it returns that deletion's error and issues no further
request; when none fails every matching spec is deleted once and nil is
returned. -/
theorem DeleteLaunchSpecs_spec (e : EC2Client) (fuel : Nat) (h : History) (asg_name : String) :
    (∀ pages : List (List LaunchConfiguration),
      ServesLaunchConfigurationPages e.AsClient h none pages → pages.length ≤ fuel →
      ∃ calls : List Call, calls.length = pages.length ∧
        AbortsOnFirstFailure e.AsClient.DeleteLaunchConfiguration Call.DeleteLaunchConfiguration
          (h ++ calls)
          ((pages.flatten.map (fun lc => lc.LaunchConfigurationName)).filter
            (fun name => HasPrefix name asg_name))
          (DeleteLaunchConfigurations e fuel h asg_name)) ∧
    (∀ pages : List (List LaunchTemplate),
      ServesLaunchTemplatePages e.Client h none pages → pages.length ≤ fuel →
      ∃ calls : List Call, calls.length = pages.length ∧
        AbortsOnFirstFailure e.Client.DeleteLaunchTemplate Call.DeleteLaunchTemplate
          (h ++ calls)
          ((pages.flatten.map (fun lt => lt.LaunchTemplateName)).filter
            (fun name => HasPrefix name asg_name))
          (DeleteLaunchTemplates e fuel h asg_name)) := by
  refine ⟨?_, ?_⟩
  · intro pages hserve hfuel
    obtain ⟨calls, hlen, henum⟩ :=
      getAllLaunchConfigurations_pages e.AsClient pages fuel h [] none hserve hfuel
    rw [List.nil_append] at henum
    have hrun : DeleteLaunchConfigurations e fuel h asg_name
        = (.ok (deleteInOrder e.AsClient.DeleteLaunchConfiguration Call.DeleteLaunchConfiguration
              (h ++ calls)
              (matchingNames asg_name
                (pages.flatten.map (fun lc => lc.LaunchConfigurationName)))).1,
            (deleteInOrder e.AsClient.DeleteLaunchConfiguration Call.DeleteLaunchConfiguration
              (h ++ calls)
              (matchingNames asg_name
                (pages.flatten.map (fun lc => lc.LaunchConfigurationName)))).2) := by
      simp [DeleteLaunchConfigurations, henum, deleteLaunchConfigurationsLoop_eq]
    rw [hrun]
    exact ⟨calls, hlen, abortsOnFirstFailure_deleteInOrder _ _ (h ++ calls) _⟩
  · intro pages hserve hfuel
    obtain ⟨calls, hlen, henum⟩ :=
      getAllLaunchTemplates_pages e.Client pages fuel h [] none hserve hfuel
    rw [List.nil_append] at henum
    have hrun : DeleteLaunchTemplates e fuel h asg_name
        = (.ok (deleteInOrder e.Client.DeleteLaunchTemplate Call.DeleteLaunchTemplate
              (h ++ calls)
              (matchingNames asg_name (pages.flatten.map (fun lt => lt.LaunchTemplateName)))).1,
            (deleteInOrder e.Client.DeleteLaunchTemplate Call.DeleteLaunchTemplate
              (h ++ calls)
              (matchingNames asg_name (pages.flatten.map (fun lt => lt.LaunchTemplateName)))).2) := by
      simp [DeleteLaunchTemplates, henum, deleteLaunchTemplatesLoop_eq]
    rw [hrun]
    exact ⟨calls, hlen, abortsOnFirstFailure_deleteInOrder _ _ (h ++ calls) _⟩

/-- Two pages list four specs, three of them named after the group `app`; the
deletion of the second of the three fails: its error is returned, and the third
one is never requested. -/
theorem DeleteLaunchSpecs_spec_witness :
    ServesLaunchConfigurationPages samplePagedLaunchSpecs.AsClient [] none
      [[{ LaunchConfigurationName := "app-v001" }, { LaunchConfigurationName := "web-v001" }],
       [{ LaunchConfigurationName := "app-v002" }, { LaunchConfigurationName := "app-v003" }]] ∧
    DeleteLaunchConfigurations samplePagedLaunchSpecs 2 [] "app"
      = (.ok (some "ResourceInUse"),
          [.DescribeLaunchConfigurations none, .DescribeLaunchConfigurations (some "t1"),
           .DeleteLaunchConfiguration "app-v001", .DeleteLaunchConfiguration "app-v002"]) ∧
    (∃ calls : List Call, calls.length = 2 ∧
      DeleteLaunchConfigurations samplePagedLaunchSpecs 2 [] "app"
        = (.ok (some "ResourceInUse"),
            [] ++ calls
              ++ [.DeleteLaunchConfiguration "app-v001", .DeleteLaunchConfiguration "app-v002"])) ∧
    ServesLaunchTemplatePages samplePagedLaunchSpecs.Client [] none
      [[{ LaunchTemplateName := "app-v001" }, { LaunchTemplateName := "web-v001" }],
       [{ LaunchTemplateName := "app-v002" }, { LaunchTemplateName := "app-v003" }]] ∧
    DeleteLaunchTemplates samplePagedLaunchSpecs 2 [] "app"
      = (.ok (some "InvalidLaunchTemplateName"),
          [.DescribeLaunchTemplates none, .DescribeLaunchTemplates (some "t1"),
           .DeleteLaunchTemplate "app-v001", .DeleteLaunchTemplate "app-v002"]) ∧
    (∃ calls : List Call, calls.length = 2 ∧
      DeleteLaunchTemplates samplePagedLaunchSpecs 2 [] "app"
        = (.ok (some "InvalidLaunchTemplateName"),
            [] ++ calls
              ++ [.DeleteLaunchTemplate "app-v001", .DeleteLaunchTemplate "app-v002"])) := by
  refine ⟨⟨"t1", rfl, rfl⟩, rfl, ?_, ⟨"t1", rfl, rfl⟩, rfl, ?_⟩
  · obtain ⟨calls, hlen, -, hfail, -⟩ :=
      (DeleteLaunchSpecs_spec samplePagedLaunchSpecs 2 [] "app").1
        [[{ LaunchConfigurationName := "app-v001" }, { LaunchConfigurationName := "web-v001" }],
         [{ LaunchConfigurationName := "app-v002" }, { LaunchConfigurationName := "app-v003" }]]
        ⟨"t1", rfl, rfl⟩ (by decide)
    refine ⟨calls, hlen, hfail 1 "app-v002" "ResourceInUse" rfl ?_ rfl⟩
    intro j nj hj hnj
    cases j with
    | zero =>
      have hname : some "app-v001" = some nj := hnj
      cases hname
      rfl
    | succ j => omega
  · obtain ⟨calls, hlen, -, hfail, -⟩ :=
      (DeleteLaunchSpecs_spec samplePagedLaunchSpecs 2 [] "app").2
        [[{ LaunchTemplateName := "app-v001" }, { LaunchTemplateName := "web-v001" }],
         [{ LaunchTemplateName := "app-v002" }, { LaunchTemplateName := "app-v003" }]]
        ⟨"t1", rfl, rfl⟩ (by decide)
    refine ⟨calls, hlen, hfail 1 "app-v002" "InvalidLaunchTemplateName" rfl ?_ rfl⟩
    intro j nj hj hnj
    cases j with
    | zero =>
      have hname : some "app-v001" = some nj := hnj
      cases hname
      rfl
    | succ j => omega

/-! ## Creation of a scaling group -/

theorem CreateAutoScalingGroup_submits (e : EC2Client) (h : History)
    (name launch_template_name healthcheck_type : String) (healthcheck_grace_period : Int)
    (capacity : Capacity)
    (loadbalancers target_group_arns termination_policies availability_zones : List String)
    (tags : List Tag) (subnets : List String) (input : CreateAutoScalingGroupInput)
    (hinput : createAutoScalingGroupInput name launch_template_name healthcheck_type
      healthcheck_grace_period capacity loadbalancers target_group_arns termination_policies
      availability_zones tags subnets = .ok input) :
    (CreateAutoScalingGroup e h name launch_template_name healthcheck_type
        healthcheck_grace_period capacity loadbalancers target_group_arns termination_policies
        availability_zones tags subnets).2 = h ++ [.CreateAutoScalingGroup input] ∧
    ∃ created : Bool,
      (CreateAutoScalingGroup e h name launch_template_name healthcheck_type
        healthcheck_grace_period capacity loadbalancers target_group_arns termination_policies
        availability_zones tags subnets).1 = .ok created := by
  unfold CreateAutoScalingGroup
  rw [hinput]
  cases hc : e.AsClient.CreateAutoScalingGroup h input with
  | some err => simp [hc]
  | none => simp [hc]

theorem createAutoScalingGroupInput_cons
    (name launch_template_name healthcheck_type : String) (healthcheck_grace_period : Int)
    (capacity : Capacity) (lb : String) (lbs : List String) (tg : String) (tgs : List String)
    (termination_policies availability_zones : List String)
    (tags : List Tag) (subnets : List String) :
    ∃ input : CreateAutoScalingGroupInput,
      createAutoScalingGroupInput name launch_template_name healthcheck_type
        healthcheck_grace_period capacity (lb :: lbs) (tg :: tgs) termination_policies
        availability_zones tags subnets = .ok input ∧
      input.LoadBalancerNames = (if lb ≠ "" then some (lb :: lbs) else none) ∧
      input.TargetGroupARNs = (if tg ≠ "" then some (tg :: tgs) else none) := by
  by_cases hl : lb = "" <;> by_cases ht : tg = "" <;>
    simp [createAutoScalingGroupInput, hl, ht]

/-- C11. For every call of `CreateAutoScalingGroup` with non-empty
`loadbalancers` and `target_group_arns`, one create request is submitted; it
carries the whole load-balancer list exactly when the first element of that list
is a non-empty string (and no load-balancer list otherwise), and the whole
target-group list exactly when the first element of that list is non-empty (and
none otherwise).  Each decision reads the first element of its own list only. -/
theorem CreateAutoScalingGroup_attach (e : EC2Client) (h : History)
    (name launch_template_name healthcheck_type : String) (healthcheck_grace_period : Int)
    (capacity : Capacity)
    (loadbalancers target_group_arns termination_policies availability_zones : List String)
    (tags : List Tag) (subnets : List String)
    (hlb : loadbalancers ≠ []) (htg : target_group_arns ≠ []) :
    ∃ input : CreateAutoScalingGroupInput,
      (CreateAutoScalingGroup e h name launch_template_name healthcheck_type
          healthcheck_grace_period capacity loadbalancers target_group_arns termination_policies
          availability_zones tags subnets).2 = h ++ [.CreateAutoScalingGroup input] ∧
      (input.LoadBalancerNames = some loadbalancers ↔ loadbalancers.head hlb ≠ "") ∧
      (input.LoadBalancerNames = none ↔ loadbalancers.head hlb = "") ∧
      (input.TargetGroupARNs = some target_group_arns ↔ target_group_arns.head htg ≠ "") ∧
      (input.TargetGroupARNs = none ↔ target_group_arns.head htg = "") := by
  match loadbalancers, hlb, target_group_arns, htg with
  | lb :: lbs, _, tg :: tgs, _ =>
    obtain ⟨input, hinput, hnames, harns⟩ := createAutoScalingGroupInput_cons name
      launch_template_name healthcheck_type healthcheck_grace_period capacity lb lbs tg tgs
      termination_policies availability_zones tags subnets
    refine ⟨input, (CreateAutoScalingGroup_submits e h name launch_template_name healthcheck_type
      healthcheck_grace_period capacity (lb :: lbs) (tg :: tgs) termination_policies
      availability_zones tags subnets input hinput).1, ?_, ?_, ?_, ?_⟩
    · rw [hnames]; by_cases hl : lb = "" <;> simp [hl]
    · rw [hnames]; by_cases hl : lb = "" <;> simp [hl]
    · rw [harns]; by_cases ht : tg = "" <;> simp [ht]
    · rw [harns]; by_cases ht : tg = "" <;> simp [ht]

/-- The lists `["", "lb2"]` and `["arn-1"]`: no load-balancer list is attached,
whatever follows the empty first name, and the target-group list is attached.
The lists `["name"]` and `[""]`: the other way round. -/
theorem CreateAutoScalingGroup_attach_witness :
    (["", "lb2"] : List String) ≠ [] ∧ (["arn-1"] : List String) ≠ [] ∧
    CreateAutoScalingGroup sampleScaling [] "app-v004" "app-v004" "ELB" 300
        { Min := 1, Max := 3, Desired := 2 } ["", "lb2"] ["arn-1"] ["Default"] ["zone-a"] []
        ["subnet-a1", "subnet-c1"]
      = (.ok true,
          [.CreateAutoScalingGroup
            { AutoScalingGroupName := "app-v004"
              LaunchTemplate := { LaunchTemplateName := "app-v004" }
              MaxSize := 3, MinSize := 1, DesiredCapacity := 2
              AvailabilityZones := ["zone-a"]
              HealthCheckType := "ELB"
              HealthCheckGracePeriod := 300
              TerminationPolicies := ["Default"]
              Tags := []
              VPCZoneIdentifier := "subnet-a1,subnet-c1"
              LoadBalancerNames := none
              TargetGroupARNs := some ["arn-1"] }]) ∧
    (∃ input : CreateAutoScalingGroupInput,
      (CreateAutoScalingGroup sampleScaling [] "app-v004" "app-v004" "ELB" 300
          { Min := 1, Max := 3, Desired := 2 } ["name"] [""] ["Default"] ["zone-a"] []
          ["subnet-a1", "subnet-c1"]).2 = [] ++ [.CreateAutoScalingGroup input] ∧
      (input.LoadBalancerNames = some ["name"] ↔ (["name"] : List String).head (by decide) ≠ "") ∧
      (input.LoadBalancerNames = none ↔ (["name"] : List String).head (by decide) = "") ∧
      (input.TargetGroupARNs = some [""] ↔ ([""] : List String).head (by decide) ≠ "") ∧
      (input.TargetGroupARNs = none ↔ ([""] : List String).head (by decide) = "")) :=
  ⟨by decide, by decide, rfl,
    CreateAutoScalingGroup_attach sampleScaling [] "app-v004" "app-v004" "ELB" 300
      { Min := 1, Max := 3, Desired := 2 } ["name"] [""] ["Default"] ["zone-a"] []
      ["subnet-a1", "subnet-c1"] (by decide) (by decide)⟩

theorem createAutoScalingGroupInput_nil
    (name launch_template_name healthcheck_type : String) (healthcheck_grace_period : Int)
    (capacity : Capacity)
    (loadbalancers target_group_arns termination_policies availability_zones : List String)
    (tags : List Tag) (subnets : List String)
    (hnil : loadbalancers = [] ∨ target_group_arns = []) :
    createAutoScalingGroupInput name launch_template_name healthcheck_type
      healthcheck_grace_period capacity loadbalancers target_group_arns termination_policies
      availability_zones tags subnets = .error .panic := by
  cases loadbalancers with
  | nil => simp [createAutoScalingGroupInput]
  | cons lb lbs =>
    cases target_group_arns with
    | nil => simp [createAutoScalingGroupInput]
    | cons tg tgs => simp at hnil

/-- C15. The reads of index 0 in `CreateAutoScalingGroup` are in range exactly
when `loadbalancers` and `target_group_arns` are both non-empty: the operation
returns `true` or `false` exactly then; for an empty (or nil) `loadbalancers` or
`target_group_arns` it panics with no request submitted.  The result of
`GetTargetGroupARNs` on an empty list of names is such a list. -/
theorem CreateAutoScalingGroup_index (e : EC2Client) (h : History)
    (name launch_template_name healthcheck_type : String) (healthcheck_grace_period : Int)
    (capacity : Capacity)
    (loadbalancers target_group_arns termination_policies availability_zones : List String)
    (tags : List Tag) (subnets : List String) :
    ((∃ created : Bool,
        (CreateAutoScalingGroup e h name launch_template_name healthcheck_type
          healthcheck_grace_period capacity loadbalancers target_group_arns termination_policies
          availability_zones tags subnets).1 = .ok created) ↔
      loadbalancers ≠ [] ∧ target_group_arns ≠ []) ∧
    (loadbalancers = [] ∨ target_group_arns = [] →
      CreateAutoScalingGroup e h name launch_template_name healthcheck_type
        healthcheck_grace_period capacity loadbalancers target_group_arns termination_policies
        availability_zones tags subnets = (.error .panic, h)) ∧
    (∀ (elb : ELBV2Client) (h0 : History),
      GetTargetGroupARNs elb h0 [] = (.ok [], h0) ∧
      ∀ arns : List String, (GetTargetGroupARNs elb h0 []).1 = .ok arns →
        CreateAutoScalingGroup e h name launch_template_name healthcheck_type
          healthcheck_grace_period capacity loadbalancers arns termination_policies
          availability_zones tags subnets = (.error .panic, h)) := by
  have hpanic : ∀ arns : List String, loadbalancers = [] ∨ arns = [] →
      CreateAutoScalingGroup e h name launch_template_name healthcheck_type
        healthcheck_grace_period capacity loadbalancers arns termination_policies
        availability_zones tags subnets = (.error .panic, h) := by
    intro arns hnil
    unfold CreateAutoScalingGroup
    rw [createAutoScalingGroupInput_nil _ _ _ _ _ _ _ _ _ _ _ hnil]
  refine ⟨⟨?_, ?_⟩, hpanic target_group_arns, ?_⟩
  · rintro ⟨created, hcreated⟩
    by_contra hne
    have hnil : loadbalancers = [] ∨ target_group_arns = [] := by
      by_cases hl : loadbalancers = []
      · exact Or.inl hl
      · exact Or.inr (by_contra fun ht => hne ⟨hl, ht⟩)
    rw [hpanic target_group_arns hnil] at hcreated
    cases hcreated
  · rintro ⟨hlb, htg⟩
    match loadbalancers, hlb, target_group_arns, htg with
    | lb :: lbs, _, tg :: tgs, _ =>
      obtain ⟨input, hinput, -⟩ := createAutoScalingGroupInput_cons name launch_template_name
        healthcheck_type healthcheck_grace_period capacity lb lbs tg tgs termination_policies
        availability_zones tags subnets
      exact (CreateAutoScalingGroup_submits e h name launch_template_name healthcheck_type
        healthcheck_grace_period capacity (lb :: lbs) (tg :: tgs) termination_policies
        availability_zones tags subnets input hinput).2
  · intro elb h0
    have hnil : GetTargetGroupARNs elb h0 [] = (.ok [], h0) := by simp [GetTargetGroupARNs]
    refine ⟨hnil, ?_⟩
    intro arns harns
    rw [hnil] at harns
    have : arns = [] := by
      simp only [Except.ok.injEq] at harns
      exact harns.symm
    exact hpanic arns (Or.inr this)

/-- A call with the load balancer `lb` and no target-group reference, as
`GetTargetGroupARNs` hands it out for no target-group name: the operation panics
and leaves the history as it was. -/
theorem CreateAutoScalingGroup_index_witness :
    ((["lb"] : List String) = [] ∨ ([] : List String) = []) ∧
    CreateAutoScalingGroup sampleScaling [] "app-v004" "app-v004" "ELB" 300
        { Min := 1, Max := 3, Desired := 2 } ["lb"] [] ["Default"] ["zone-a"] []
        ["subnet-a1"] = (.error .panic, []) ∧
    (GetTargetGroupARNs sampleELB [] []).1 = .ok [] ∧
    ((∃ created : Bool,
        (CreateAutoScalingGroup sampleScaling [] "app-v004" "app-v004" "ELB" 300
          { Min := 1, Max := 3, Desired := 2 } ["lb"] ["arn-1"] ["Default"] ["zone-a"] []
          ["subnet-a1"]).1 = .ok created) ↔
      (["lb"] : List String) ≠ [] ∧ (["arn-1"] : List String) ≠ []) :=
  ⟨Or.inr rfl,
    (CreateAutoScalingGroup_index sampleScaling [] "app-v004" "app-v004" "ELB" 300
      { Min := 1, Max := 3, Desired := 2 } ["lb"] [] ["Default"] ["zone-a"] []
      ["subnet-a1"]).2.1 (Or.inr rfl),
    rfl,
    (CreateAutoScalingGroup_index sampleScaling [] "app-v004" "app-v004" "ELB" 300
      { Min := 1, Max := 3, Desired := 2 } ["lb"] ["arn-1"] ["Default"] ["zone-a"] []
      ["subnet-a1"]).1⟩

/-! ## Deletion of a scaling group -/

/-- C12, the code at the failing input. `DeleteAutoscalingSet` issues the
`DeleteAutoScalingGroup` request and nothing else, whatever the remote and the
group name.  For the group `app`, whose three launch configurations the sibling
`DeleteLaunchConfigurations` does delete, it returns `true` with no launch
configuration requested for deletion. -/
theorem DeleteAutoscalingSet_no_cascade (e : EC2Client) (h : History) (asg_name : String) :
    (DeleteAutoscalingSet e h asg_name).2 = h ++ [.DeleteAutoScalingGroup asg_name] ∧
    DeleteAutoscalingSet sampleScaling [] "app" = (.ok true, [.DeleteAutoScalingGroup "app"]) ∧
    DeleteLaunchConfigurations sampleScaling 1 [] "app"
      = (.ok none,
          [.DescribeLaunchConfigurations none, .DeleteLaunchConfiguration "app-v001",
           .DeleteLaunchConfiguration "app-v002", .DeleteLaunchConfiguration "app-v003"]) := by
  refine ⟨?_, rfl, rfl⟩
  unfold DeleteAutoscalingSet
  cases e.AsClient.DeleteAutoScalingGroup h asg_name <;> rfl

/-! ## Failed enumeration of launch specs -/

theorem getAllLaunchConfigurations_failure (client : AutoScaling)
    (pages : List (List LaunchConfiguration)) :
    ∀ (fuel : Nat) (h : History) (lcs : List LaunchConfiguration) (tok : Option String),
      LaunchConfigurationPagesThenFailure client h tok pages → pages.length < fuel →
      ∃ (calls : List Call) (failing : Option String),
        calls.length = pages.length ∧
        (∃ err : Error, client.DescribeLaunchConfigurations (h ++ calls) failing = .error err) ∧
        getAllLaunchConfigurations client fuel h lcs tok
          = (.ok [], h ++ calls ++ [.DescribeLaunchConfigurations failing]) := by
  induction pages with
  | nil =>
    intro fuel h lcs tok hfail hfuel
    obtain ⟨err, herr⟩ := hfail
    cases fuel with
    | zero => simp at hfuel
    | succ fuel =>
      exact ⟨[], tok, rfl, ⟨err, by simpa using herr⟩, by simp [getAllLaunchConfigurations, herr]⟩
  | cons page rest ih =>
    intro fuel h lcs tok hfail hfuel
    obtain ⟨token, hpage, hrest⟩ := hfail
    cases fuel with
    | zero => simp at hfuel
    | succ fuel =>
      obtain ⟨calls, failing, hlen, ⟨err, herr⟩, hrun⟩ :=
        ih fuel (h ++ [.DescribeLaunchConfigurations tok]) (lcs ++ page) (some token) hrest
          (by simpa using hfuel)
      refine ⟨.DescribeLaunchConfigurations tok :: calls, failing, by simp [hlen],
        ⟨err, by simpa using herr⟩, ?_⟩
      simp [getAllLaunchConfigurations, hpage, hrun]

theorem getAllLaunchTemplates_failure (client : EC2) (pages : List (List LaunchTemplate)) :
    ∀ (fuel : Nat) (h : History) (lts : List LaunchTemplate) (tok : Option String),
      LaunchTemplatePagesThenFailure client h tok pages → pages.length < fuel →
      ∃ (calls : List Call) (failing : Option String),
        calls.length = pages.length ∧
        (∃ err : Error, client.DescribeLaunchTemplates (h ++ calls) failing = .error err) ∧
        getAllLaunchTemplates client fuel h lts tok
          = (.ok [], h ++ calls ++ [.DescribeLaunchTemplates failing]) := by
  induction pages with
  | nil =>
    intro fuel h lts tok hfail hfuel
    obtain ⟨err, herr⟩ := hfail
    cases fuel with
    | zero => simp at hfuel
    | succ fuel =>
      exact ⟨[], tok, rfl, ⟨err, by simpa using herr⟩, by simp [getAllLaunchTemplates, herr]⟩
  | cons page rest ih =>
    intro fuel h lts tok hfail hfuel
    obtain ⟨token, hpage, hrest⟩ := hfail
    cases fuel with
    | zero => simp at hfuel
    | succ fuel =>
      obtain ⟨calls, failing, hlen, ⟨err, herr⟩, hrun⟩ :=
        ih fuel (h ++ [.DescribeLaunchTemplates tok]) (lts ++ page) (some token) hrest
          (by simpa using hfuel)
      refine ⟨.DescribeLaunchTemplates tok :: calls, failing, by simp [hlen],
        ⟨err, by simpa using herr⟩, ?_⟩
      simp [getAllLaunchTemplates, hpage, hrun]

/-- C13. When the remote serves some pages of launch configurations (resp.
launch templates) and fails the request for the next page,
`getAllLaunchConfigurations` (resp. `getAllLaunchTemplates`) returns no items,
whatever the pages fetched before the failure and whatever accumulator was passed
in; it issues one request per served page and then the failing request, which is
the last one. -/
theorem getAllLaunchSpecs_failure (e : EC2Client) (fuel : Nat) (h : History)
    (tok : Option String) :
    (∀ (pages : List (List LaunchConfiguration)) (lcs : List LaunchConfiguration),
      LaunchConfigurationPagesThenFailure e.AsClient h tok pages → pages.length < fuel →
      ∃ (calls : List Call) (failing : Option String),
        calls.length = pages.length ∧
        (∃ err : Error,
          e.AsClient.DescribeLaunchConfigurations (h ++ calls) failing = .error err) ∧
        getAllLaunchConfigurations e.AsClient fuel h lcs tok
          = (.ok [], h ++ calls ++ [.DescribeLaunchConfigurations failing])) ∧
    (∀ (pages : List (List LaunchTemplate)) (lts : List LaunchTemplate),
      LaunchTemplatePagesThenFailure e.Client h tok pages → pages.length < fuel →
      ∃ (calls : List Call) (failing : Option String),
        calls.length = pages.length ∧
        (∃ err : Error, e.Client.DescribeLaunchTemplates (h ++ calls) failing = .error err) ∧
        getAllLaunchTemplates e.Client fuel h lts tok
          = (.ok [], h ++ calls ++ [.DescribeLaunchTemplates failing])) :=
  ⟨fun pages lcs hfail hfuel =>
      getAllLaunchConfigurations_failure e.AsClient pages fuel h lcs tok hfail hfuel,
    fun pages lts hfail hfuel =>
      getAllLaunchTemplates_failure e.Client pages fuel h lts tok hfail hfuel⟩

/-- One page of two launch specs is served and the request for the second page
fails: nothing is returned, not even the entry of the accumulator, and the
failing request is the last one. -/
theorem getAllLaunchSpecs_failure_witness :
    LaunchConfigurationPagesThenFailure sampleBrokenPager.AsClient [] none
      [[{ LaunchConfigurationName := "app-v001" }, { LaunchConfigurationName := "app-v002" }]] ∧
    getAllLaunchConfigurations sampleBrokenPager.AsClient 2 []
        [{ LaunchConfigurationName := "app-v000" }] none
      = (.ok [], [.DescribeLaunchConfigurations none, .DescribeLaunchConfigurations (some "t1")]) ∧
    (∃ (calls : List Call) (failing : Option String),
      calls.length
        = [[({ LaunchConfigurationName := "app-v001" } : LaunchConfiguration),
            { LaunchConfigurationName := "app-v002" }]].length ∧
      (∃ err : Error,
        sampleBrokenPager.AsClient.DescribeLaunchConfigurations ([] ++ calls) failing
          = .error err) ∧
      getAllLaunchConfigurations sampleBrokenPager.AsClient 2 []
          [{ LaunchConfigurationName := "app-v000" }] none
        = (.ok [], [] ++ calls ++ [.DescribeLaunchConfigurations failing])) ∧
    LaunchTemplatePagesThenFailure sampleBrokenPager.Client [] none
      [[{ LaunchTemplateName := "app-v001" }, { LaunchTemplateName := "app-v002" }]] ∧
    getAllLaunchTemplates sampleBrokenPager.Client 2 [] [{ LaunchTemplateName := "app-v000" }] none
      = (.ok [], [.DescribeLaunchTemplates none, .DescribeLaunchTemplates (some "t1")]) ∧
    (∃ (calls : List Call) (failing : Option String),
      calls.length
        = [[({ LaunchTemplateName := "app-v001" } : LaunchTemplate),
            { LaunchTemplateName := "app-v002" }]].length ∧
      (∃ err : Error,
        sampleBrokenPager.Client.DescribeLaunchTemplates ([] ++ calls) failing = .error err) ∧
      getAllLaunchTemplates sampleBrokenPager.Client 2 [] [{ LaunchTemplateName := "app-v000" }]
          none
        = (.ok [], [] ++ calls ++ [.DescribeLaunchTemplates failing])) :=
  ⟨⟨"t1", rfl, "InvalidNextToken", rfl⟩, rfl,
    (getAllLaunchSpecs_failure sampleBrokenPager 2 [] none).1 _ _
      ⟨"t1", rfl, "InvalidNextToken", rfl⟩ (by decide),
    ⟨"t1", rfl, "InvalidNextToken", rfl⟩, rfl,
    (getAllLaunchSpecs_failure sampleBrokenPager 2 [] none).2 _ _
      ⟨"t1", rfl, "InvalidNextToken", rfl⟩ (by decide)⟩

/-! ## How `GenerateTags` reads an entry -/

theorem splitChars_of_not_mem (sep : Char) (cs : List Char) (hsep : sep ∉ cs) :
    splitChars sep cs = [cs] := by
  induction cs with
  | nil => rfl
  | cons c cs ih =>
    have hc : ¬ c = sep := fun hc => hsep (hc ▸ List.mem_cons_self _ _)
    have hcs : sep ∉ cs := fun hin => hsep (List.mem_cons_of_mem _ hin)
    rw [splitChars, if_neg hc, ih hcs]

theorem Split_one_none (tagKV : String) (hno : '=' ∉ tagKV.data) :
    (Split tagKV '=')[1]? = none := by
  unfold Split
  rw [splitChars_of_not_mem _ _ hno]
  rfl

theorem generateTagsLoop_panic (tagList : List String)
    (hbad : ∃ tagKV ∈ tagList, '=' ∉ tagKV.data) :
    ∀ ret : List Tag, generateTagsLoop tagList ret = .error .panic := by
  induction tagList with
  | nil => obtain ⟨kv, hkv, -⟩ := hbad; simp at hkv
  | cons tagKV rest ih =>
    intro ret
    by_cases heq : '=' ∈ tagKV.data
    · have hrest : ∃ kv ∈ rest, '=' ∉ kv.data := by
        obtain ⟨kv, hkv, hno⟩ := hbad
        rcases List.mem_cons.mp hkv with rfl | hin
        · exact absurd heq hno
        · exact ⟨kv, hin, hno⟩
      simp only [generateTagsLoop, Split_zero, Split_one tagKV heq]
      exact ih hrest _
    · simp only [generateTagsLoop, Split_zero, Split_one_none tagKV heq]

/-- C14. `GenerateTags` reads an entry through `strings.Split(entry, "=")`.  When
every entry contains a "=", the tag emitted for an entry has as key the text
before the first "=" and as value the text between the first and the second "="
(the whole remainder exactly when there is no second "=").  When some entry
contains no "=", the read of the value is out of range and no tag list is
returned. -/
theorem GenerateTags_reads_entry (tagList : List String) (asg_name app stack : String) :
    ((∀ tagKV ∈ tagList, '=' ∈ tagKV.data) →
      ∃ tags : List Tag, GenerateTags tagList asg_name app stack = .ok tags ∧
        ∀ (i : Nat) (tagKV : String), tagList[i]? = some tagKV →
          tags[i]? = some
            { Key := String.mk (tagKV.data.takeWhile (fun c => c != '='))
              Value := String.mk
                (((tagKV.data.dropWhile (fun c => c != '=')).drop 1).takeWhile
                  (fun c => c != '=')) }) ∧
    ((∃ tagKV ∈ tagList, '=' ∉ tagKV.data) →
      GenerateTags tagList asg_name app stack = .error .panic) ∧
    (∀ tagKV : String,
      entryValue tagKV = String.mk ((tagKV.data.dropWhile (fun c => c != '=')).drop 1) ↔
        '=' ∉ (tagKV.data.dropWhile (fun c => c != '=')).drop 1) := by
  refine ⟨?_, ?_, ?_⟩
  · intro hwf
    have heq := generateTagsLoop_eq tagList hwf []
    refine ⟨[] ++ tagList.map (fun tagKV => { Key := entryKey tagKV, Value := entryValue tagKV })
        ++ [{ Key := "Name", Value := asg_name }] ++ [{ Key := "app", Value := app }]
        ++ [{ Key := "stack", Value := stack }], by simp only [GenerateTags, heq], ?_⟩
    intro i tagKV hi
    have hlt : i < tagList.length := by
      by_contra hge
      rw [List.getElem?_eq_none (by omega)] at hi
      cases hi
    simp only [List.nil_append, List.append_assoc]
    rw [List.getElem?_append_left (by simpa using hlt), List.getElem?_map, hi]
    rfl
  · intro hbad
    simp only [GenerateTags, generateTagsLoop_panic tagList hbad []]
  · intro tagKV
    unfold entryValue
    rw [String.ext_iff]
    show List.takeWhile _ _ = _ ↔ _
    rw [List.takeWhile_eq_self_iff]
    constructor
    · intro hall hin
      have := hall _ hin
      simp at this
    · intro hno c hc
      have hne : c ≠ '=' := fun hceq => hno (hceq ▸ hc)
      simpa using hne

/-- The entry `a=b=c` gives the key `a` and the value `b`; the entry `novalue`
after it makes the whole call panic. -/
theorem GenerateTags_reads_entry_witness :
    (∀ tagKV ∈ ["a=b=c", "k=v"], '=' ∈ tagKV.data) ∧
    GenerateTags ["a=b=c", "k=v"] "asg-v001" "shop" "prod"
      = .ok [{ Key := "a", Value := "b" }, { Key := "k", Value := "v" },
             { Key := "Name", Value := "asg-v001" }, { Key := "app", Value := "shop" },
             { Key := "stack", Value := "prod" }] ∧
    (∃ tags : List Tag, GenerateTags ["a=b=c", "k=v"] "asg-v001" "shop" "prod" = .ok tags ∧
      ∀ (i : Nat) (tagKV : String), ["a=b=c", "k=v"][i]? = some tagKV →
        tags[i]? = some
          { Key := String.mk (tagKV.data.takeWhile (fun c => c != '='))
            Value := String.mk
              (((tagKV.data.dropWhile (fun c => c != '=')).drop 1).takeWhile
                (fun c => c != '=')) }) ∧
    (∃ tagKV ∈ ["a=b=c", "novalue"], '=' ∉ tagKV.data) ∧
    GenerateTags ["a=b=c", "novalue"] "asg-v001" "shop" "prod" = .error .panic :=
  ⟨by decide, rfl,
    (GenerateTags_reads_entry ["a=b=c", "k=v"] "asg-v001" "shop" "prod").1 (by decide),
    ⟨"novalue", by decide, by decide⟩,
    (GenerateTags_reads_entry ["a=b=c", "novalue"] "asg-v001" "shop" "prod").2.1
      ⟨"novalue", by decide, by decide⟩⟩

end Goployer
